import Mathlib

/-!
# PsyLayout render engine: a shallow embedding with verified properties

This file embeds the layout-resolution core of the PsyLayout engine
(`design-manager.tsx`) in Lean 4 and proves properties of the breakpoint
resolver, snap engine, geometry resolver, validation engine, z-order
resolver and paging state machine.

Modelling conventions:
* JS numbers are modelled as rationals (`ℚ`); the engine performs only
  field arithmetic, `Math.round`, `Math.ceil` and comparisons on them.
  `NaN` inputs are outside the model except where a parse failure is
  explicitly represented by `Option` (`jsNumberOfChars` returns `none`
  where JS `Number(...)` returns `NaN`).
* JS strings that the engine merely transports are `String`; percentage
  strings produced by the engine itself are kept with their exact
  rational value in the dedicated `CssDim.pct` constructor.
* Fallible resolution (the `throw` paths of a Section) is a result value
  (`Option FatalError` in `SectionOut`); the `onError` notification fires
  exactly when the fatal field is set.
-/

namespace PsyLayout

/-- Breakpoint tiers (`BreakpointKey`). -/
inductive BreakpointKey : Type
  | base
  | sm
  | md
  | lg
  | xl
deriving DecidableEq

/-- A partial tier map, the object form of a responsive value. -/
structure BpMap (α : Type) where
  base : Option α := none
  sm : Option α := none
  md : Option α := none
  lg : Option α := none
  xl : Option α := none
deriving DecidableEq

/-- Field lookup `obj[bp]`. -/
def BpMap.get {α : Type} (m : BpMap α) : BreakpointKey → Option α
  | .base => m.base
  | .sm => m.sm
  | .md => m.md
  | .lg => m.lg
  | .xl => m.xl

/-- The TS union `Responsive T = T | Partial Record BreakpointKey T`. -/
inductive Responsive (α : Type) : Type
  | plain (a : α)
  | byBp (m : BpMap α)
deriving DecidableEq

/-- `pickResponsive` for scalar payloads (JS number / string / boolean):
the `typeof value` test sends a plain value through unchanged, and a tier
map resolves as `obj[bp] ?? obj.base`. -/
def pickResponsive {α : Type} : Responsive α → BreakpointKey → Option α
  | .plain a, _ => some a
  | .byBp m, bp =>
      match m.get bp with
      | some v => some v
      | none => m.base

/-- `pickResponsive` for object payloads (`Rect`, `LogicalRect`): the
source discriminates with `typeof value !== "object"`, so a bare rect
object is treated as a tier map and resolves through
`obj[bp] ?? obj.base`, both `undefined` for a bare rect. -/
def pickResponsiveObj {α : Type} : Responsive α → BreakpointKey → Option α
  | .plain _, _ => none
  | .byBp m, bp =>
      match m.get bp with
      | some v => some v
      | none => m.base

/-- `resolveVisibility`: `undefined` is visible; otherwise resolve the
responsive boolean, an unresolved tier defaulting to visible. -/
def resolveVisibility (v : Option (Responsive Bool)) (bp : BreakpointKey) : Bool :=
  match v with
  | none => true
  | some r => (pickResponsive r bp).getD true

/-- A CSS dimension value: a JS `number`, an opaque author-supplied
string, or a percentage string produced by the engine, kept with its
exact rational value (JS renders it as `"<q>%"`). -/
inductive CssDim : Type
  | num (q : ℚ)
  | str (s : String)
  | pct (q : ℚ)
deriving DecidableEq

/-- `typeof v === "number"` for a CSS dimension value. -/
def CssDim.isNum : CssDim → Bool
  | .num _ => true
  | _ => false

/-- Literal geometry (`Rect`), all fields optional. -/
structure Rect where
  left : Option CssDim := none
  top : Option CssDim := none
  width : Option CssDim := none
  height : Option CssDim := none
deriving DecidableEq

/-- A Section's virtual design canvas (`LogicalSize`). -/
structure LogicalSize where
  width : ℚ
  height : ℚ
deriving DecidableEq

/-- A Locator's logical geometry (`LogicalRect`). -/
structure LogicalRect where
  x : ℚ
  y : ℚ
  w : ℚ
  h : ℚ
deriving DecidableEq

/-! ## Snap engine -/

/-- Snap quantization mode. -/
inductive SnapMode : Type
  | strict
  | soft
deriving DecidableEq

/-- Snap axis selection. -/
inductive SnapAxes : Type
  | x
  | y
  | both
deriving DecidableEq

/-- Grid quantization policy (`SnapConfig`), optional fields as in the
source type. -/
structure SnapConfig where
  grid : ℚ
  mode : Option SnapMode := none
  axes : Option SnapAxes := none
  threshold : Option ℚ := none
deriving DecidableEq

/-- The `snap` prop: a bare number or a full config. -/
inductive SnapProp : Type
  | num (n : ℚ)
  | cfg (c : SnapConfig)
deriving DecidableEq

/-- `normalizeSnapConfig`: `undefined` and the falsy number `0` yield no
config; a number becomes `{grid, strict, both, 0}`; a config gets its
optional fields defaulted. -/
def normalizeSnapConfig : Option SnapProp → Option SnapConfig
  | none => none
  | some (.num n) =>
      if n = 0 then none
      else some { grid := n, mode := some .strict, axes := some .both, threshold := some 0 }
  | some (.cfg c) =>
      some { grid := c.grid, mode := some (c.mode.getD .strict),
             axes := some (c.axes.getD .both), threshold := some (c.threshold.getD 0) }

/-- JS `Math.round`: round half toward positive infinity. -/
def jsRound (q : ℚ) : ℚ := (⌊q + 1 / 2⌋ : ℤ)

/-- The `snapValue` closure of the Locator: `rounded = round(v / grid) * grid`;
soft mode keeps `rounded` only within the threshold, strict mode always. -/
def snapValue (grid : ℚ) (mode : SnapMode) (threshold : ℚ) (val : ℚ) : ℚ :=
  let rounded := jsRound (val / grid) * grid
  match mode with
  | .soft => if |rounded - val| ≤ threshold then rounded else val
  | .strict => rounded

/-- Snap application to a logical rect, guarded by `snap && snap.grid > 0`;
the x-axis flag snaps `x` and `w`, the y-axis flag snaps `y` and `h`. -/
def applySnap (snap : Option SnapConfig) (lr : LogicalRect) : LogicalRect :=
  match snap with
  | none => lr
  | some c =>
      if 0 < c.grid then
        let mode := c.mode.getD .strict
        let axes := c.axes.getD .both
        let t := c.threshold.getD 0
        let xSnap := axes = SnapAxes.x ∨ axes = SnapAxes.both
        let ySnap := axes = SnapAxes.y ∨ axes = SnapAxes.both
        { x := if xSnap then snapValue c.grid mode t lr.x else lr.x,
          y := if ySnap then snapValue c.grid mode t lr.y else lr.y,
          w := if xSnap then snapValue c.grid mode t lr.w else lr.w,
          h := if ySnap then snapValue c.grid mode t lr.h else lr.h }
      else lr

/-! ## Geometry resolver (Locator) -/

/-- The fixed enumerated constraint set (`LocatorConstraints`). -/
structure LocatorConstraints where
  centerX : Bool := false
  centerY : Bool := false
  pinLeft : Bool := false
  pinRight : Bool := false
  pinTop : Bool := false
  pinBottom : Bool := false
  keepAspectRatio : Option ℚ := none
  lockX : Bool := false
  lockY : Bool := false
deriving DecidableEq

/-- The `finalRect` computation of the Locator: with a logical size and a
breakpoint-resolved logical rect, snap then map to percentages of the
logical size; otherwise fall back to the breakpoint-resolved literal
rect (empty when unresolved). -/
def locatorFinalRectBase (logicalSize : Option LogicalSize) (snap : Option SnapConfig)
    (logicalRect : Option (Responsive LogicalRect)) (rect : Option (Responsive Rect))
    (bp : BreakpointKey) : Rect :=
  let lr := logicalRect.bind fun r => pickResponsiveObj r bp
  match logicalSize, lr with
  | some ls, some l =>
      let s := applySnap snap l
      { left := some (.pct (s.x / ls.width * 100)),
        top := some (.pct (s.y / ls.height * 100)),
        width := some (.pct (s.w / ls.width * 100)),
        height := some (.pct (s.h / ls.height * 100)) }
  | _, _ => (pickResponsiveObj (rect.getD (.plain {})) bp).getD {}

/-- The `keepAspectRatio` step: fires only when the ratio is truthy and
exactly one of width/height is a bare JS number; percentage strings are
not numbers, so logical-rect-sourced rects are never aspect-derived. -/
def applyAspect (constraints : Option LocatorConstraints) (r : Rect) : Rect :=
  match constraints with
  | none => r
  | some c =>
      match c.keepAspectRatio with
      | none => r
      | some ratio =>
          if ratio = 0 then r
          else
            match r.width, r.height with
            | some (.num _), some (.num _) => r
            | some (.num w), _ => { r with height := some (.num (w / ratio)) }
            | _, some (.num h) => { r with width := some (.num (h * ratio)) }
            | _, _ => r

/-- The Locator's resolved rect through geometry resolution and the
aspect-ratio constraint (the centering / pinning overrides apply to the
positioned style afterwards, not to this rect). -/
def locatorResolvedRect (logicalSize : Option LogicalSize) (snap : Option SnapConfig)
    (logicalRect : Option (Responsive LogicalRect)) (rect : Option (Responsive Rect))
    (bp : BreakpointKey) (constraints : Option LocatorConstraints) : Rect :=
  applyAspect constraints (locatorFinalRectBase logicalSize snap logicalRect rect bp)

/-! ## Rule engine: condition matching -/

/-- JS whitespace (the ASCII subset relevant to `trim`, `Number` and the
regex class `\s`; exotic Unicode space code points are outside the model). -/
def jsWs (c : Char) : Bool :=
  decide (c = ' ' ∨ c = '\t' ∨ c = '\n' ∨ c = '\r' ∨ c = '\x0b' ∨ c = '\x0c')

/-- JS `String.prototype.trim` on the character list. -/
def trimChars (cs : List Char) : List Char :=
  ((cs.dropWhile jsWs).reverse.dropWhile jsWs).reverse

/-- Decimal value of a digit string. -/
def digitsVal (ds : List Char) : ℕ :=
  ds.foldl (fun a c => a * 10 + (c.toNat - 48)) 0

/-- Exponent part of a JS numeric string: empty, or `e`/`E` followed by an
optionally signed nonempty digit string; anything else fails the parse. -/
def parseExpPart : List Char → Option ℤ
  | [] => some 0
  | c :: rest =>
      if c = 'e' ∨ c = 'E' then
        match rest with
        | [] => none
        | d :: ds =>
            if d = '+' then
              if ds ≠ [] ∧ ds.all Char.isDigit then some (digitsVal ds : ℤ) else none
            else if d = '-' then
              if ds ≠ [] ∧ ds.all Char.isDigit then some (-(digitsVal ds : ℤ)) else none
            else if (d :: ds).all Char.isDigit then some (digitsVal (d :: ds) : ℤ)
            else none
      else none

/-- Unsigned decimal mantissa of a JS numeric string: digits with an
optional fractional part (at least one digit overall); returns the value
and the unconsumed remainder. -/
def parseDecMantissa (cs : List Char) : Option (ℚ × List Char) :=
  let intd := cs.takeWhile Char.isDigit
  let rest := cs.dropWhile Char.isDigit
  match rest with
  | [] => if intd = [] then none else some ((digitsVal intd : ℚ), [])
  | c :: rest2 =>
      if c = '.' then
        let fracd := rest2.takeWhile Char.isDigit
        let rest3 := rest2.dropWhile Char.isDigit
        if intd = [] ∧ fracd = [] then none
        else some ((digitsVal intd : ℚ) + (digitsVal fracd : ℚ) / 10 ^ fracd.length, rest3)
      else if intd = [] then none
      else some ((digitsVal intd : ℚ), c :: rest2)

/-- JS `Number(string)` on decimal numeric strings: trim, empty coerces to
0, optional sign, decimal mantissa, optional exponent; `none` stands for
`NaN`. (`Infinity` and radix-prefixed literals are outside the model.) -/
def jsNumberOfChars (cs0 : List Char) : Option ℚ :=
  match trimChars cs0 with
  | [] => some 0
  | c :: rest =>
      let sgn : ℚ := if c = '-' then -1 else 1
      let body := if c = '-' ∨ c = '+' then rest else c :: rest
      match parseDecMantissa body with
      | none => none
      | some (mant, rem) =>
          match parseExpPart rem with
          | none => none
          | some e => some (sgn * mant * (10 : ℚ) ^ e)

/-- The range regex of `matchRule`: digits, optional whitespace, a hyphen,
optional whitespace, digits, end of string. -/
def parseRange (cs : List Char) : Option (ℕ × ℕ) :=
  let d1 := cs.takeWhile Char.isDigit
  let r1 := cs.dropWhile Char.isDigit
  if d1 = [] then none
  else
    match r1.dropWhile jsWs with
    | [] => none
    | c :: r3 =>
        if c = '-' then
          let r4 := r3.dropWhile jsWs
          let d2 := r4.takeWhile Char.isDigit
          let r5 := r4.dropWhile Char.isDigit
          if d2 = [] ∨ r5 ≠ [] then none else some (digitsVal d1, digitsVal d2)
        else none

/-- `matchRule(when, width)`: trim; empty never matches; a `<` or `>` head
compares the width against `Number` of the remainder (a failed parse, JS
`NaN`, never matches); otherwise the inclusive digit range form; anything
else never matches. -/
def matchRule (when : String) (width : ℚ) : Bool :=
  match trimChars when.data with
  | [] => false
  | c :: rest =>
      if c = '<' then
        match jsNumberOfChars rest with
        | some v => decide (width < v)
        | none => false
      else if c = '>' then
        match jsNumberOfChars rest with
        | some v => decide (v < width)
        | none => false
      else
        match parseRange (c :: rest) with
        | some p => decide ((p.1 : ℚ) ≤ width ∧ width ≤ (p.2 : ℚ))
        | none => false

/-- Modelled from the spec: the condition grammar of exactly three forms,
a `<` or `>` head followed by a (nonempty, all-digit) numeral, or the
numeral range form; the spec says any other string never matches. -/
def specConditionForm (when : String) : Bool :=
  match trimChars when.data with
  | [] => false
  | c :: rest =>
      if c = '<' then decide (rest ≠ []) && rest.all Char.isDigit
      else if c = '>' then decide (rest ≠ []) && rest.all Char.isDigit
      else (parseRange (c :: rest)).isSome

/-! ## Validation engine -/

/-- Section layout discipline. -/
inductive SectionMode : Type
  | free
  | row
  | column
deriving DecidableEq

/-- The five-type issue taxonomy. -/
inductive LayoutIssueType : Type
  | MissingLogicalSize
  | InvalidRect
  | OffsetWithoutLogicalSize
  | Overlap
  | ModeConflict
deriving DecidableEq

/-- Issue severity. -/
inductive LayoutIssueSeverity : Type
  | warning
  | error
deriving DecidableEq

/-- A validation finding. The human-readable message string of the source
is presentation-only and not modelled. -/
structure LayoutIssue where
  type : LayoutIssueType
  severity : LayoutIssueSeverity
  sectionId : Option String := none
  locatorId : Option String := none
  otherLocatorId : Option String := none
deriving DecidableEq

/-- The per-child descriptor record the Section extracts from a Locator
child (id, geometry specs, offsets, visibility, zIndex, order). -/
structure LocatorDesc where
  id : Option String := none
  rect : Option (Responsive Rect) := none
  logicalRect : Option (Responsive LogicalRect) := none
  offsetX : Option (Responsive CssDim) := none
  offsetY : Option (Responsive CssDim) := none
  hidden : Option (Responsive Bool) := none
  zIndex : Option (Responsive ℤ) := none
  order : Option ℤ := none
deriving DecidableEq

/-- An overlap candidate collected during validation. -/
structure OverlapBox where
  id : Option String
  x : ℚ
  y : ℚ
  w : ℚ
  h : ℚ
deriving DecidableEq

/-- Axis-aligned intersection area
`max(0, minRight-maxLeft) * max(0, minBottom-maxTop)`. -/
def overlapArea (a b : OverlapBox) : ℚ :=
  max 0 (min (a.x + a.w) (b.x + b.w) - max a.x b.x) *
    max 0 (min (a.y + a.h) (b.y + b.h) - max a.y b.y)

/-- `typeof v === "number"` on an optional resolved offset. -/
def isNumericOffset : Option CssDim → Bool
  | some (.num _) => true
  | _ => false

/-- The per-locator issues of rules 2-4 (InvalidRect,
OffsetWithoutLogicalSize, ModeConflict), skipping locators hidden at the
breakpoint level, in the push order of the source loop. -/
def locatorIssues (sid : Option String) (m : SectionMode) (ls : Option LogicalSize)
    (bp : BreakpointKey) (loc : LocatorDesc) : List LayoutIssue :=
  if resolveVisibility loc.hidden bp = false then []
  else
    let r := loc.rect.bind fun rr => pickResponsiveObj rr bp
    let lr := loc.logicalRect.bind fun rr => pickResponsiveObj rr bp
    let invalid :=
      match r with
      | some rr =>
          if m = .free ∧ (rr.width = none ∨ rr.height = none) then
            [{ type := .InvalidRect, severity := .warning, sectionId := sid,
               locatorId := loc.id }]
          else []
      | none => []
    let ox := loc.offsetX.bind fun o => pickResponsive o bp
    let oy := loc.offsetY.bind fun o => pickResponsive o bp
    let offsetIssue :=
      if (isNumericOffset ox = true ∨ isNumericOffset oy = true) ∧ ls = none then
        [{ type := .OffsetWithoutLogicalSize, severity := .warning, sectionId := sid,
           locatorId := loc.id }]
      else []
    let modeConflict :=
      if (m = .row ∨ m = .column) ∧ (r ≠ none ∨ lr ≠ none) then
        [{ type := .ModeConflict, severity := .warning, sectionId := sid,
           locatorId := loc.id }]
      else []
    invalid ++ offsetIssue ++ modeConflict

/-- The overlap candidates: visible locators with a breakpoint-resolved
logicalRect, inside a free-mode Section with a LogicalSize, in original
child order. -/
def overlapBoxes (m : SectionMode) (ls : Option LogicalSize) (bp : BreakpointKey)
    (locs : List LocatorDesc) : List OverlapBox :=
  locs.filterMap fun loc =>
    if resolveVisibility loc.hidden bp = false then none
    else
      match loc.logicalRect.bind fun rr => pickResponsiveObj rr bp with
      | some l =>
          if m = .free ∧ ls ≠ none then some ⟨loc.id, l.x, l.y, l.w, l.h⟩ else none
      | none => none

/-- All ordered pairs (earlier, later) of a list, i before j. -/
def pairsAfter {α : Type} : List α → List (α × α)
  | [] => []
  | a :: rest => (rest.map fun b => (a, b)) ++ pairsAfter rest

/-- Rule 5: one Overlap warning per pair of candidates with strictly
positive intersection area, naming both ids. -/
def overlapIssues (sid : Option String) (boxes : List OverlapBox) : List LayoutIssue :=
  (pairsAfter boxes).filterMap fun p =>
    if 0 < overlapArea p.1 p.2 then
      some { type := .Overlap, severity := .warning, sectionId := sid,
             locatorId := p.1.id, otherLocatorId := p.2.id }
    else none

/-- `validateSectionLayout`: MissingLogicalSize first, then the
per-locator rules in child order, then all Overlap pairs. -/
def validateSectionLayout (sid : Option String) (m : SectionMode)
    (ls : Option LogicalSize) (locs : List LocatorDesc) (bp : BreakpointKey) :
    List LayoutIssue :=
  let missing :=
    if m = .free ∧ ls = none then
      [{ type := .MissingLogicalSize, severity := .error, sectionId := sid }]
    else []
  missing ++ locs.flatMap (locatorIssues sid m ls bp) ++
    overlapIssues sid (overlapBoxes m ls bp locs)

/-- The Overlap issue of one ordered locator pair as the spec states it:
both visible, both supplying a breakpoint-resolved logicalRect, and
strictly positive intersection area. -/
def specOverlapIssue (sid : Option String) (bp : BreakpointKey)
    (a b : LocatorDesc) : Option LayoutIssue :=
  if resolveVisibility a.hidden bp = true ∧ resolveVisibility b.hidden bp = true then
    match a.logicalRect.bind fun rr => pickResponsiveObj rr bp,
        b.logicalRect.bind fun rr => pickResponsiveObj rr bp with
    | some la, some lb =>
        if 0 < max 0 (min (la.x + la.w) (lb.x + lb.w) - max la.x lb.x) *
            max 0 (min (la.y + la.h) (lb.y + lb.h) - max la.y lb.y) then
          some { type := .Overlap, severity := .warning, sectionId := sid,
                 locatorId := a.id, otherLocatorId := b.id }
        else none
    | _, _ => none
  else none

/-- The spec-side description of rule 5: over every unordered pair
(i before j) of the original child list. -/
def specOverlapIssues (sid : Option String) (bp : BreakpointKey)
    (locs : List LocatorDesc) : List LayoutIssue :=
  (pairsAfter locs).filterMap fun p => specOverlapIssue sid bp p.1 p.2

/-! ## Z-order resolver -/

/-- Breakpoint resolution of a zIndex prop (a number is scalar, a tier
map resolves per breakpoint). -/
def resolveZ (z : Option (Responsive ℤ)) (bp : BreakpointKey) : Option ℤ :=
  z.bind fun r => pickResponsive r bp

/-- Locators annotated with their effective zIndex: the breakpoint-resolved
zIndex if defined, else 1 + position index in the given list. -/
def effZList (locs : List LocatorDesc) (bp : BreakpointKey) : List (LocatorDesc × ℤ) :=
  locs.enum.map fun p => (p.2, (resolveZ p.2.zIndex bp).getD ((p.1 : ℤ) + 1))

/-- The seen-set duplicate scan of the source, returning the first
repeated value. -/
def findDup (seen : List ℤ) : List ℤ → Option ℤ
  | [] => none
  | z :: rest => if z ∈ seen then some z else findDup (z :: seen) rest

/-- Stable insertion into a key-sorted list: the new element goes before
the first element whose key is not smaller. -/
def insertByKey {α : Type} (key : α → ℤ) (x : α) : List α → List α
  | [] => [x]
  | y :: ys => if key y < key x then y :: insertByKey key x ys else x :: y :: ys

/-- Stable sort by an integer key (models the stable JS
`Array.prototype.sort` with a numeric comparator). -/
def stableSortByKey {α : Type} (key : α → ℤ) : List α → List α
  | [] => []
  | x :: xs => insertByKey key x (stableSortByKey key xs)

/-- `sortLocatorsByZIndex`: duplicate effective zIndex in the given list
is fatal (the source throws after firing onError); otherwise the pairs
sorted ascending by effective zIndex. -/
def sortLocatorsByZIndex (locs : List LocatorDesc) (bp : BreakpointKey) :
    Except ℤ (List (LocatorDesc × ℤ)) :=
  let pairs := effZList locs bp
  match findDup [] (pairs.map fun p => p.2) with
  | some z => .error z
  | none => .ok (stableSortByKey (fun p => p.2) pairs)

/-- Children annotated with their `order` prop, defaulting to the
running index. -/
def annotateOrder (i : ℤ) : List LocatorDesc → List (LocatorDesc × ℤ)
  | [] => []
  | l :: rest => (l, l.order.getD i) :: annotateOrder (i + 1) rest

/-- `sortByOrder`: annotate each child with its `order` prop (defaulting
to its index) and sort stably by it. -/
def sortByOrder (locs : List LocatorDesc) : List LocatorDesc :=
  (stableSortByKey (fun p => p.2) (annotateOrder 0 locs)).map fun p => p.1

/-! ## Paging state machine -/

/-- Paging mode of a Section. -/
inductive PagingMode : Type
  | none
  | pages
  | slider
deriving DecidableEq

/-- Animation mode of a Section. -/
inductive AnimationMode : Type
  | none
  | slide
  | fade
  | scale
deriving DecidableEq

/-- The Section configuration fields the resolution and paging logic
read. -/
structure SectionCfg where
  id : Option String := none
  mode : Responsive SectionMode := .byBp { base := some .row }
  logicalSize : Option LogicalSize := none
  snap : Option SnapProp := none
  pagingMode : PagingMode := .none
  pageSize : Option ℤ := none
  defaultPage : ℤ := 0
  currentPage : Option ℤ := none
  showDots : Bool := true
  showArrows : Bool := true
  autoPlay : Bool := false
  loop : Bool := true
  lazy : Bool := true
  animation : AnimationMode := .none
deriving DecidableEq

/-- Mutable paging state of a Section. -/
structure PagingSt where
  internalPage : ℤ
  dragging : Bool := false
  dragStartX : ℚ := 0
  dragDeltaX : ℚ := 0
deriving DecidableEq

/-- `pagingMode !== "none"`. -/
def isPaged (cfg : SectionCfg) : Prop := cfg.pagingMode ≠ PagingMode.none

instance (cfg : SectionCfg) : Decidable (isPaged cfg) := by
  unfold isPaged
  infer_instance

/-- `pagingMode === "slider" && animation === "slide"`. -/
def isSliderSlide (cfg : SectionCfg) : Prop :=
  cfg.pagingMode = PagingMode.slider ∧ cfg.animation = AnimationMode.slide

instance (cfg : SectionCfg) : Decidable (isSliderSlide cfg) := by
  unfold isSliderSlide
  infer_instance

/-- `effectivePageSize`: the pageSize when paged, truthy and positive,
else the child count, else the falsy-fallback 1. -/
def effectivePageSize (cfg : SectionCfg) (n : ℕ) : ℤ :=
  match cfg.pageSize with
  | some p =>
      if isPaged cfg ∧ ¬(p = 0) ∧ 0 < p then p else if n = 0 then 1 else (n : ℤ)
  | none => if n = 0 then 1 else (n : ℤ)

/-- Modelled from the spec: the claimed effective page size,
`pageSize if pageSize > 0 else childCount`. -/
def claimedEffectivePageSize (cfg : SectionCfg) (n : ℕ) : ℤ :=
  match cfg.pageSize with
  | some p => if 0 < p then p else (n : ℤ)
  | none => (n : ℤ)

/-- `totalPages = len > 0 ? max(1, ceil(len / effectivePageSize)) : 1`. -/
def totalPages (cfg : SectionCfg) (n : ℕ) : ℤ :=
  if 0 < n then max 1 ⌈(n : ℚ) / (effectivePageSize cfg n : ℚ)⌉ else 1

/-- The raw page index: the controlled value when supplied, else the
internal state. -/
def rawPageIndex (cfg : SectionCfg) (st : PagingSt) : ℤ :=
  cfg.currentPage.getD st.internalPage

/-- `safePageIndex`: the raw page index clamped into [0, totalPages-1]. -/
def safePageIndex (cfg : SectionCfg) (n : ℕ) (st : PagingSt) : ℤ :=
  let raw := rawPageIndex cfg st
  let tp := totalPages cfg n
  if raw < 0 then 0 else if tp - 1 < raw then tp - 1 else raw

/-- The `goToPage` target: loop-wrap or clamp outside [0, totalPages-1],
identity inside. -/
def goToPageTarget (cfg : SectionCfg) (n : ℕ) (next : ℤ) : ℤ :=
  let tp := totalPages cfg n
  if next < 0 then (if cfg.loop then tp - 1 else 0)
  else if tp - 1 < next then (if cfg.loop then 0 else tp - 1)
  else next

/-- Result of one paging operation: the successor state, the arguments of
the `goToPage` invocations it performed, and the onPageChange
notification payloads it fired. -/
structure StepRes where
  st : PagingSt
  calls : List ℤ
  notifs : List ℤ
deriving DecidableEq

/-- `goToPage`: compute the target, assign the internal page only in
uncontrolled mode, always fire onPageChange with the target. -/
def goToPageStep (cfg : SectionCfg) (n : ℕ) (st : PagingSt) (next : ℤ) : StepRes :=
  let target := goToPageTarget cfg n next
  { st := if cfg.currentPage = Option.none then { st with internalPage := target } else st,
    calls := [next], notifs := [target] }

/-- `goNext`: no-op unless paged with more than one page. -/
def goNextStep (cfg : SectionCfg) (n : ℕ) (st : PagingSt) : StepRes :=
  if ¬isPaged cfg ∨ totalPages cfg n ≤ 1 then ⟨st, [], []⟩
  else goToPageStep cfg n st (safePageIndex cfg n st + 1)

/-- `goPrev`: no-op unless paged with more than one page. -/
def goPrevStep (cfg : SectionCfg) (n : ℕ) (st : PagingSt) : StepRes :=
  if ¬isPaged cfg ∨ totalPages cfg n ≤ 1 then ⟨st, [], []⟩
  else goToPageStep cfg n st (safePageIndex cfg n st - 1)

/-- Gesture start (slider+slide only): capture the origin, zero the
delta, enter the active state. -/
def pointerDownStep (cfg : SectionCfg) (st : PagingSt) (x : ℚ) : StepRes :=
  if isSliderSlide cfg then
    ⟨{ st with dragging := true, dragStartX := x, dragDeltaX := 0 }, [], []⟩
  else ⟨st, [], []⟩

/-- Gesture move: update the delta while active. -/
def pointerMoveStep (cfg : SectionCfg) (st : PagingSt) (x : ℚ) : StepRes :=
  if isSliderSlide cfg ∧ st.dragging = true then
    ⟨{ st with dragDeltaX := x - st.dragStartX }, [], []⟩
  else ⟨st, [], []⟩

/-- Gesture end (`handlePointerUp`, also fired on mouse-leave and
touch-end): above the 50px threshold navigate by one page in the swipe
direction; always reset the delta and leave the active state. -/
def pointerUpStep (cfg : SectionCfg) (n : ℕ) (st : PagingSt) : StepRes :=
  if isSliderSlide cfg ∧ st.dragging = true then
    let delta := st.dragDeltaX
    let r :=
      if 50 < |delta| then
        if delta < 0 then goNextStep cfg n st else goPrevStep cfg n st
      else ⟨st, [], []⟩
    ⟨{ r.st with dragging := false, dragDeltaX := 0 }, r.calls, r.notifs⟩
  else ⟨st, [], []⟩

/-- One autoplay timer tick: goNext, armed only when paged, autoplaying,
more than one page and in slider+slide mode. -/
def autoplayTickStep (cfg : SectionCfg) (n : ℕ) (st : PagingSt) : StepRes :=
  if isPaged cfg ∧ cfg.autoPlay = true ∧ 1 < totalPages cfg n ∧ isSliderSlide cfg then
    goNextStep cfg n st
  else ⟨st, [], []⟩

/-- The snap-back effect: in uncontrolled mode an out-of-range internal
page is silently clamped; it never fires onPageChange, and in controlled
mode it does nothing. -/
def reconcileStep (cfg : SectionCfg) (n : ℕ) (st : PagingSt) : StepRes :=
  if ¬(rawPageIndex cfg st = safePageIndex cfg n st) ∧ cfg.currentPage = Option.none then
    ⟨{ st with internalPage := safePageIndex cfg n st }, [], []⟩
  else ⟨st, [], []⟩

/-- The operations of the paging machine. -/
inductive PagingOp : Type
  | goTo (next : ℤ)
  | pointerDown (x : ℚ)
  | pointerMove (x : ℚ)
  | pointerUp
  | pointerLeave
  | autoplayTick
  | dotClick (idx : ℤ)
  | arrowNext
  | arrowPrev
  | reconcile
deriving DecidableEq

/-- One step of the paging machine; dots and arrows exist only when the
controls render (paged, more than one page, flag on), and pointer-leave
is wired to the same handler as gesture end. -/
def pagingStep (cfg : SectionCfg) (n : ℕ) (st : PagingSt) : PagingOp → StepRes
  | .goTo k => goToPageStep cfg n st k
  | .pointerDown x => pointerDownStep cfg st x
  | .pointerMove x => pointerMoveStep cfg st x
  | .pointerUp => pointerUpStep cfg n st
  | .pointerLeave => pointerUpStep cfg n st
  | .autoplayTick => autoplayTickStep cfg n st
  | .dotClick i =>
      if isPaged cfg ∧ 1 < totalPages cfg n ∧ cfg.showDots = true then
        goToPageStep cfg n st i
      else ⟨st, [], []⟩
  | .arrowNext =>
      if isPaged cfg ∧ 1 < totalPages cfg n ∧ cfg.showArrows = true then
        goNextStep cfg n st
      else ⟨st, [], []⟩
  | .arrowPrev =>
      if isPaged cfg ∧ 1 < totalPages cfg n ∧ cfg.showArrows = true then
        goPrevStep cfg n st
      else ⟨st, [], []⟩
  | .reconcile => reconcileStep cfg n st

/-- The condition under which non-slider paging slices children to the
current page. -/
def sliceCond (cfg : SectionCfg) (n : ℕ) : Prop :=
  isPaged cfg ∧ 1 < totalPages cfg n ∧ ¬isSliderSlide cfg ∧ cfg.lazy = true

instance (cfg : SectionCfg) (n : ℕ) : Decidable (sliceCond cfg n) := by
  unfold sliceCond
  infer_instance

/-- `pageChildren`: in lazy paged non-slider mode, the slice
`[safePageIndex*eps, safePageIndex*eps+eps)` of the ordered children;
otherwise all of them (the non-lazy clone keeps every child mounted). -/
def pageChildrenOf {α : Type} (cfg : SectionCfg) (st : PagingSt)
    (orderedAll : List α) : List α :=
  let n := orderedAll.length
  if sliceCond cfg n then
    (orderedAll.drop ((safePageIndex cfg n st) * effectivePageSize cfg n).toNat).take
      (effectivePageSize cfg n).toNat
  else orderedAll

/-- Example input: a locator carrying the explicit zIndex 7. -/
def zDupLoc : LocatorDesc := { zIndex := some (.plain 7) }

/-- Example input: a paged lazy Section of page size 1. -/
def zDupCfg : SectionCfg := { pagingMode := .pages, pageSize := some 1 }

/-- Example input: a locator with explicit zIndex 5. -/
def zOkLocA : LocatorDesc := { id := some "a", zIndex := some (.plain 5) }

/-- Example input: a locator with no zIndex (defaults to 1 + index). -/
def zOkLocB : LocatorDesc := { id := some "b" }

deriving instance DecidableEq for Except

/-! ## Section resolution -/

/-- The fatal channel: a thrown error reported through onError. -/
inductive FatalError : Type
  | missingLogicalSize
  | duplicateZ (z : ℤ)
deriving DecidableEq

/-- Result of resolving one Section: the validation batch, the fatal
outcome (the onError notification fires exactly when set, and then no
geometry is emitted), and the ordered render output with effective
z-indices. -/
structure SectionOut where
  issues : List LayoutIssue
  fatal : Option FatalError
  geometry : List (LocatorDesc × ℤ)
deriving DecidableEq

/-- One Section resolution pass: resolve the mode, validate (a
MissingLogicalSize error throws), order children by the order prop,
apply paging slicing, then z-sort (a duplicate throws). -/
def resolveSection (cfg : SectionCfg) (st : PagingSt) (locs : List LocatorDesc)
    (bp : BreakpointKey) : SectionOut :=
  let m := (pickResponsive cfg.mode bp).getD .row
  let issues := validateSectionLayout cfg.id m cfg.logicalSize locs bp
  if issues.any fun i =>
      decide (i.type = LayoutIssueType.MissingLogicalSize ∧ i.severity = .error) then
    ⟨issues, some .missingLogicalSize, []⟩
  else
    let orderedAll := sortByOrder locs
    let n := orderedAll.length
    let pageChildren := pageChildrenOf cfg st orderedAll
    let baseForZ :=
      if isSliderSlide cfg ∧ isPaged cfg ∧ 1 < totalPages cfg n then orderedAll
      else pageChildren
    match sortLocatorsByZIndex baseForZ bp with
    | .error z => ⟨issues, some (.duplicateZ z), []⟩
    | .ok sorted => ⟨issues, none, sorted⟩

/-! ## C1, C2 -/

/-- C1: for a Locator inside a Section with a defined LogicalSize whose
breakpoint-resolved logicalRect exists, the resolved geometry is the
percentage mapping of the snapped logical coordinates:
left = x/LW*100%, top = y/LH*100%, width = w/LW*100%, height = h/LH*100%. -/
theorem locator_logical_geometry (ls : LogicalSize) (snap : Option SnapConfig)
    (constraints : Option LocatorConstraints) (lrProp : Responsive LogicalRect)
    (rect : Option (Responsive Rect)) (bp : BreakpointKey) (l : LogicalRect)
    (hlr : pickResponsiveObj lrProp bp = some l) :
    locatorResolvedRect (some ls) snap (some lrProp) rect bp constraints =
      { left := some (.pct ((applySnap snap l).x / ls.width * 100)),
        top := some (.pct ((applySnap snap l).y / ls.height * 100)),
        width := some (.pct ((applySnap snap l).w / ls.width * 100)),
        height := some (.pct ((applySnap snap l).h / ls.height * 100)) } := by
  have hbase : locatorFinalRectBase (some ls) snap (some lrProp) rect bp =
      { left := some (.pct ((applySnap snap l).x / ls.width * 100)),
        top := some (.pct ((applySnap snap l).y / ls.height * 100)),
        width := some (.pct ((applySnap snap l).w / ls.width * 100)),
        height := some (.pct ((applySnap snap l).h / ls.height * 100)) } := by
    simp [locatorFinalRectBase, hlr]
  unfold locatorResolvedRect
  rw [hbase]
  rcases constraints with _ | c
  · rfl
  · rcases hk : c.keepAspectRatio with _ | ratio
    · simp [applyAspect, hk]
    · simp only [applyAspect, hk]
      split
      · rfl
      · rfl

/-- C1 witness: LogicalSize 800×600 with base LogicalRect (100,120,380,200)
resolves to left 12.5%, top 20%, width 47.5%, height 33.333...% (= 100/3). -/
theorem locator_logical_geometry_witness :
    locatorResolvedRect (some ⟨800, 600⟩) none
        (some (.byBp { base := some ⟨100, 120, 380, 200⟩ })) none .base none =
      { left := some (.pct (25 / 2)), top := some (.pct 20),
        width := some (.pct (95 / 2)), height := some (.pct (100 / 3)) } := by
  have h := locator_logical_geometry ⟨800, 600⟩ none none
    (.byBp { base := some ⟨100, 120, 380, 200⟩ }) none .base ⟨100, 120, 380, 200⟩ rfl
  rw [h]
  simp only [applySnap]
  norm_num

/-- C2: the snap engine. Strict mode always returns `round(v/g)*g`; soft
mode returns it exactly within the threshold and otherwise v unchanged;
the x-axis flag couples x with w and the y-axis flag couples y with h;
a bare numeric snap shorthand behaves as grid n, strict, both axes,
threshold 0. -/
theorem snap_engine_correct (g t v n : ℚ) (m : SnapMode) (lr : LogicalRect) (hg : 0 < g) :
    snapValue g .strict t v = jsRound (v / g) * g
    ∧ snapValue g .soft t v =
        (if |jsRound (v / g) * g - v| ≤ t then jsRound (v / g) * g else v)
    ∧ applySnap (some { grid := g, mode := some m, axes := some .x, threshold := some t }) lr =
        { x := snapValue g m t lr.x, y := lr.y, w := snapValue g m t lr.w, h := lr.h }
    ∧ applySnap (some { grid := g, mode := some m, axes := some .y, threshold := some t }) lr =
        { x := lr.x, y := snapValue g m t lr.y, w := lr.w, h := snapValue g m t lr.h }
    ∧ applySnap (some { grid := g, mode := some m, axes := some .both, threshold := some t }) lr =
        { x := snapValue g m t lr.x, y := snapValue g m t lr.y,
          w := snapValue g m t lr.w, h := snapValue g m t lr.h }
    ∧ applySnap (normalizeSnapConfig (some (.num n))) lr =
        applySnap (some { grid := n, mode := some .strict, axes := some .both,
                          threshold := some 0 }) lr := by
  refine ⟨rfl, rfl, ?_, ?_, ?_, ?_⟩
  · simp [applySnap, hg]
  · simp [applySnap, hg]
  · simp [applySnap, hg]
  · by_cases hn : n = 0
    · subst hn
      simp [normalizeSnapConfig, applySnap]
    · simp [normalizeSnapConfig, hn]

/-- C2 witness: snap(17,10,strict)=20, snap(17,10,soft,2)=17,
snap(18,10,soft,2)=20, on a positive grid. -/
theorem snap_engine_correct_witness :
    (0 : ℚ) < 10 ∧ snapValue 10 .strict 0 17 = 20
    ∧ snapValue 10 .soft 2 17 = 17 ∧ snapValue 10 .soft 2 18 = 20 := by
  have h17 := snap_engine_correct 10 2 17 1 .strict ⟨0, 0, 0, 0⟩ (by norm_num)
  have h18 := snap_engine_correct 10 2 18 1 .strict ⟨0, 0, 0, 0⟩ (by norm_num)
  have hr17 : jsRound ((17 : ℚ) / 10) * 10 = 20 := by
    unfold jsRound
    norm_num
  have hr18 : jsRound ((18 : ℚ) / 10) * 10 = 20 := by
    unfold jsRound
    norm_num
  refine ⟨by norm_num, ?_, ?_, ?_⟩
  · have h := snap_engine_correct 10 0 17 1 .strict ⟨0, 0, 0, 0⟩ (by norm_num)
    rw [h.1, hr17]
  · rw [h17.2.1, hr17]
    norm_num
  · rw [h18.2.1, hr18]
    norm_num

/-! ## C9: rule matching -/

theorem jsWs_of_isDigit {c : Char} (h : c.isDigit = true) : jsWs c = false := by
  cases hj : jsWs c with
  | false => rfl
  | true =>
    exfalso
    simp only [jsWs, decide_eq_true_eq] at hj
    rcases hj with h1 | h1 | h1 | h1 | h1 | h1 <;> subst h1 <;> exact absurd h (by decide)

theorem trimChars_eq_self {cs : List Char} (h : ∀ c ∈ cs, jsWs c = false) :
    trimChars cs = cs := by
  unfold trimChars
  have h1 : cs.dropWhile jsWs = cs := by
    cases cs with
    | nil => rfl
    | cons a t =>
      exact List.dropWhile_cons_of_neg (by simp [h a (List.mem_cons_self a t)])
  rw [h1]
  have h2 : cs.reverse.dropWhile jsWs = cs.reverse := by
    cases hr : cs.reverse with
    | nil => rfl
    | cons a t =>
      apply List.dropWhile_cons_of_neg
      have ha : a ∈ cs := by
        rw [← List.mem_reverse, hr]
        exact List.mem_cons_self a t
      simp [h a ha]
  rw [h2, List.reverse_reverse]

theorem jsNumberOfChars_digits {ds : List Char} (hne : ds ≠ [])
    (hd : ds.all Char.isDigit = true) :
    jsNumberOfChars ds = some (digitsVal ds : ℚ) := by
  have hall : ∀ c ∈ ds, c.isDigit = true := by simpa [List.all_eq_true] using hd
  have htrim : trimChars ds = ds :=
    trimChars_eq_self (fun c hc => jsWs_of_isDigit (hall c hc))
  have hmant : parseDecMantissa ds = some ((digitsVal ds : ℚ), []) := by
    unfold parseDecMantissa
    have ht : ds.takeWhile Char.isDigit = ds :=
      List.takeWhile_eq_self_iff.mpr (fun a ha => hall a ha)
    have hdr : ds.dropWhile Char.isDigit = [] :=
      List.dropWhile_eq_nil_iff.mpr (fun a ha => hall a ha)
    simp only [ht, hdr, if_neg hne]
  unfold jsNumberOfChars
  rw [htrim]
  rcases ds with _ | ⟨c, rest⟩
  · exact absurd rfl hne
  · have hc : c.isDigit = true := hall c (List.mem_cons_self c rest)
    have hcm : ¬(c = '-') := fun hh => absurd hc (by rw [hh]; decide)
    have hcp : ¬(c = '-' ∨ c = '+') := by
      rintro (hh | hh) <;> exact absurd hc (by rw [hh]; decide)
    simp only [if_neg hcm, if_neg hcp, hmant, parseExpPart]
    rw [zpow_zero, mul_one, one_mul]

theorem takeWhile_dropWhile_append_not (p : Char → Bool) (l1 l2 : List Char) (c : Char)
    (h1 : ∀ a ∈ l1, p a = true) (hc : p c = false) :
    (l1 ++ c :: l2).takeWhile p = l1 ∧ (l1 ++ c :: l2).dropWhile p = c :: l2 := by
  induction l1 with
  | nil => simp [List.takeWhile_cons, List.dropWhile_cons, hc]
  | cons a t ih =>
    have ha := h1 a (List.mem_cons_self a t)
    have iht := ih (fun x hx => h1 x (List.mem_cons_of_mem a hx))
    simp [List.takeWhile_cons, List.dropWhile_cons, ha, iht.1, iht.2]

theorem parseRange_digits {d1 d2 : List Char} (h1 : d1 ≠ [])
    (ha1 : d1.all Char.isDigit = true) (h2 : d2 ≠ [])
    (ha2 : d2.all Char.isDigit = true) :
    parseRange (d1 ++ '-' :: d2) = some (digitsVal d1, digitsVal d2) := by
  have hall1 : ∀ c ∈ d1, c.isDigit = true := by simpa [List.all_eq_true] using ha1
  have hall2 : ∀ c ∈ d2, c.isDigit = true := by simpa [List.all_eq_true] using ha2
  have hsplit := takeWhile_dropWhile_append_not Char.isDigit d1 d2 '-' hall1 (by decide)
  unfold parseRange
  simp only [hsplit.1, hsplit.2, if_neg h1]
  have hdw : ('-' :: d2).dropWhile jsWs = '-' :: d2 :=
    List.dropWhile_cons_of_neg (by decide)
  rw [hdw]
  simp only [if_pos rfl]
  have hd2w : d2.dropWhile jsWs = d2 := by
    rcases d2 with _ | ⟨e, t⟩
    · rfl
    · exact List.dropWhile_cons_of_neg
        (by simp [jsWs_of_isDigit (hall2 e (List.mem_cons_self e t))])
  have ht2 : d2.takeWhile Char.isDigit = d2 :=
    List.takeWhile_eq_self_iff.mpr (fun a ha => hall2 a ha)
  have hdr2 : d2.dropWhile Char.isDigit = [] :=
    List.dropWhile_eq_nil_iff.mpr (fun a ha => hall2 a ha)
  rw [hd2w]
  simp only [ht2, hdr2]
  simp [h2]

/-- C9 (amended): matchRule recognises a less-than or greater-than head
whose remainder is coerced by JS Number (so the three spec forms match
per their semantics), and a string that neither begins with a comparison
sign nor matches the digit range pattern never matches; but a comparison
sign with an empty or otherwise coercible remainder also matches (the
counterexample), so the grammar is not exactly three forms. -/
theorem matchRule_amended (w : ℚ) (s : String) (dsN dsM : List Char)
    (hN : dsN ≠ []) (haN : dsN.all Char.isDigit = true)
    (hM : dsM ≠ []) (haM : dsM.all Char.isDigit = true) :
    matchRule (String.mk ('<' :: dsN)) w = decide (w < (digitsVal dsN : ℚ))
    ∧ matchRule (String.mk ('>' :: dsN)) w = decide ((digitsVal dsN : ℚ) < w)
    ∧ matchRule (String.mk (dsN ++ '-' :: dsM)) w
        = decide ((digitsVal dsN : ℚ) ≤ w ∧ w ≤ (digitsVal dsM : ℚ))
    ∧ (∀ c rest, trimChars s.data = c :: rest → ¬(c = '<') → ¬(c = '>') →
        parseRange (c :: rest) = none → matchRule s w = false)
    ∧ (trimChars s.data = [] → matchRule s w = false) := by
  have hallN : ∀ c ∈ dsN, c.isDigit = true := by simpa [List.all_eq_true] using haN
  have hnum := jsNumberOfChars_digits hN haN
  have htrimN : trimChars dsN = dsN :=
    trimChars_eq_self (fun c hc => jsWs_of_isDigit (hallN c hc))
  refine ⟨?_, ?_, ?_, ?_, ?_⟩
  · have htrim : trimChars ('<' :: dsN) = '<' :: dsN := by
      apply trimChars_eq_self
      intro c hc
      rcases List.mem_cons.mp hc with rfl | hc
      · decide
      · exact jsWs_of_isDigit (hallN c hc)
    unfold matchRule
    rw [show (String.mk ('<' :: dsN)).data = '<' :: dsN from rfl, htrim]
    simp [hnum]
  · have htrim : trimChars ('>' :: dsN) = '>' :: dsN := by
      apply trimChars_eq_self
      intro c hc
      rcases List.mem_cons.mp hc with rfl | hc
      · decide
      · exact jsWs_of_isDigit (hallN c hc)
    unfold matchRule
    rw [show (String.mk ('>' :: dsN)).data = '>' :: dsN from rfl, htrim]
    simp [hnum]
  · have hallM : ∀ c ∈ dsM, c.isDigit = true := by simpa [List.all_eq_true] using haM
    have htrim : trimChars (dsN ++ '-' :: dsM) = dsN ++ '-' :: dsM := by
      apply trimChars_eq_self
      intro c hc
      rcases List.mem_append.mp hc with hc | hc
      · exact jsWs_of_isDigit (hallN c hc)
      · rcases List.mem_cons.mp hc with rfl | hc
        · decide
        · exact jsWs_of_isDigit (hallM c hc)
    unfold matchRule
    rw [show (String.mk (dsN ++ '-' :: dsM)).data = dsN ++ '-' :: dsM from rfl, htrim]
    rcases dsN with _ | ⟨c, rest⟩
    · exact absurd rfl hN
    · have hc : c.isDigit = true := hallN c (List.mem_cons_self c rest)
      have hlt : ¬(c = '<') := fun hh => absurd hc (by rw [hh]; decide)
      have hgt : ¬(c = '>') := fun hh => absurd hc (by rw [hh]; decide)
      simp only [List.cons_append, if_neg hlt, if_neg hgt]
      rw [show c :: (rest ++ '-' :: dsM) = (c :: rest) ++ '-' :: dsM from rfl]
      rw [parseRange_digits hN haN hM haM]
  · intro c rest htrim hlt hgt hrange
    unfold matchRule
    rw [htrim]
    simp only [if_neg hlt, if_neg hgt, hrange]
  · intro htrim
    unfold matchRule
    rw [htrim]

/-- C9 counterexample: the claim says any string other than the three
forms never matches; but the single-character condition consisting of a
greater-than sign, which is not of any form, matches width 600 because
JS Number coerces the empty remainder to 0. -/
theorem matchRule_claim_counterexample :
    specConditionForm ">" = false ∧ matchRule ">" 600 = true := by
  constructor
  · decide
  · decide

/-- C9 witness: the five example evaluations of the spec. -/
theorem matchRule_amended_witness :
    matchRule "<600" 599 = true ∧ matchRule "<600" 600 = false
    ∧ matchRule ">1200" 1201 = true
    ∧ matchRule "600-1024" 1024 = true ∧ matchRule "600-1024" 1025 = false := by
  have h600 : (digitsVal ['6', '0', '0'] : ℚ) = 600 := by
    rw [show digitsVal ['6', '0', '0'] = 600 from by decide]
    norm_num
  have h1200 : (digitsVal ['1', '2', '0', '0'] : ℚ) = 1200 := by
    rw [show digitsVal ['1', '2', '0', '0'] = 1200 from by decide]
    norm_num
  have h1024 : (digitsVal ['1', '0', '2', '4'] : ℚ) = 1024 := by
    rw [show digitsVal ['1', '0', '2', '4'] = 1024 from by decide]
    norm_num
  refine ⟨?_, ?_, ?_, ?_, ?_⟩
  · have h := (matchRule_amended 599 "" ['6', '0', '0'] ['1']
      (by decide) (by decide) (by decide) (by decide)).1
    rw [show ("<600" : String) = String.mk ('<' :: ['6', '0', '0']) from rfl, h, h600]
    norm_num
  · have h := (matchRule_amended 600 "" ['6', '0', '0'] ['1']
      (by decide) (by decide) (by decide) (by decide)).1
    rw [show ("<600" : String) = String.mk ('<' :: ['6', '0', '0']) from rfl, h, h600]
    norm_num
  · have h := (matchRule_amended 1201 "" ['1', '2', '0', '0'] ['1']
      (by decide) (by decide) (by decide) (by decide)).2.1
    rw [show (">1200" : String) = String.mk ('>' :: ['1', '2', '0', '0']) from rfl, h, h1200]
    norm_num
  · have h := (matchRule_amended 1024 "" ['6', '0', '0'] ['1', '0', '2', '4']
      (by decide) (by decide) (by decide) (by decide)).2.2.1
    rw [show ("600-1024" : String)
        = String.mk (['6', '0', '0'] ++ '-' :: ['1', '0', '2', '4']) from rfl, h, h600, h1024]
    norm_num
  · have h := (matchRule_amended 1025 "" ['6', '0', '0'] ['1', '0', '2', '4']
      (by decide) (by decide) (by decide) (by decide)).2.2.1
    rw [show ("600-1024" : String)
        = String.mk (['6', '0', '0'] ++ '-' :: ['1', '0', '2', '4']) from rfl, h, h600, h1024]
    norm_num

/-! ## C3: overlap detection -/

theorem pairsAfter_mem {α : Type} {l : List α} {x y : α} :
    (x, y) ∈ pairsAfter l ↔ ∃ i j, i < j ∧ l.get? i = some x ∧ l.get? j = some y := by
  induction l with
  | nil => simp [pairsAfter]
  | cons a t ih =>
    simp only [pairsAfter, List.mem_append, List.mem_map, ih]
    constructor
    · rintro (⟨b, hb, heq⟩ | ⟨i, j, hij, hx, hy⟩)
      · obtain ⟨k, hk⟩ := List.get?_of_mem hb
        obtain ⟨rfl, rfl⟩ := Prod.mk.injEq .. ▸ heq
        exact ⟨0, k + 1, Nat.succ_pos k, rfl, by simpa using hk⟩
      · exact ⟨i + 1, j + 1, by omega, by simpa using hx, by simpa using hy⟩
    · rintro ⟨i, j, hij, hx, hy⟩
      cases i with
      | zero =>
        cases j with
        | zero => omega
        | succ j' =>
          left
          have hxa : x = a := by simpa using hx.symm
          subst hxa
          exact ⟨y, List.get?_mem (by simpa using hy), rfl⟩
      | succ i' =>
        cases j with
        | zero => omega
        | succ j' =>
          right
          exact ⟨i', j', by omega, by simpa using hx, by simpa using hy⟩

theorem pairsAfter_filterMap {α β : Type} (f : α → Option β) (l : List α) :
    pairsAfter (l.filterMap f) = (pairsAfter l).filterMap fun p =>
      match f p.1, f p.2 with
      | some a, some b => some (a, b)
      | _, _ => none := by
  induction l with
  | nil => rfl
  | cons a t ih =>
    cases hfa : f a with
    | none =>
      rw [List.filterMap_cons_none hfa]
      simp only [pairsAfter, List.filterMap_append, ih, List.filterMap_map]
      have h1 : (t.filterMap fun b =>
          match f ((a, b) : α × α).1, f ((a, b) : α × α).2 with
          | some a, some b => some ((a, b) : β × β)
          | _, _ => none) = [] := by
        apply List.filterMap_eq_nil_iff.mpr
        intro b _
        simp only [hfa]
      rw [Function.comp_def] at *
      simp only [h1, List.nil_append]
    | some a' =>
      rw [List.filterMap_cons_some hfa]
      simp only [pairsAfter, List.filterMap_append, ih, List.filterMap_map]
      congr 1
      rw [List.map_filterMap]
      apply List.filterMap_congr
      intro b _
      cases hfb : f b <;> simp [hfa, hfb]

theorem pairsAfter_enum_mem {α : Type} {l : List α} {i j : ℕ} {a b : α} :
    ((i, a), (j, b)) ∈ pairsAfter l.enum ↔
      i < j ∧ l.get? i = some a ∧ l.get? j = some b := by
  rw [pairsAfter_mem]
  constructor
  · rintro ⟨k1, k2, hk, h1, h2⟩
    rw [List.get?_enum] at h1 h2
    rcases hg1 : l.get? k1 with _ | x1
    · rw [hg1] at h1
      exact absurd h1 (by simp)
    · rcases hg2 : l.get? k2 with _ | x2
      · rw [hg2] at h2
        exact absurd h2 (by simp)
      · rw [hg1] at h1
        rw [hg2] at h2
        simp only [Option.map_some', Option.some.injEq, Prod.mk.injEq] at h1 h2
        obtain ⟨rfl, rfl⟩ := h1
        obtain ⟨rfl, rfl⟩ := h2
        exact ⟨hk, hg1, hg2⟩
  · rintro ⟨hij, h1, h2⟩
    refine ⟨i, j, hij, ?_, ?_⟩ <;> rw [List.get?_enum]
    · rw [h1]
      rfl
    · rw [h2]
      rfl

theorem locatorIssues_type {sid : Option String} {m : SectionMode}
    {ls : Option LogicalSize} {bp : BreakpointKey} {loc : LocatorDesc}
    {i : LayoutIssue} (h : i ∈ locatorIssues sid m ls bp loc) :
    i.type = .InvalidRect ∨ i.type = .OffsetWithoutLogicalSize
      ∨ i.type = .ModeConflict := by
  unfold locatorIssues at h
  split at h
  · simp at h
  · simp only [List.mem_append] at h
    rcases h with (h | h) | h
    · split at h
      · split at h
        · simp only [List.mem_singleton] at h
          subst h
          exact Or.inl rfl
        · simp at h
      · simp at h
    · split at h
      · simp only [List.mem_singleton] at h
        subst h
        exact Or.inr (Or.inl rfl)
      · simp at h
    · split at h
      · simp only [List.mem_singleton] at h
        subst h
        exact Or.inr (Or.inr rfl)
      · simp at h

theorem overlapIssues_mem_type {sid : Option String} {boxes : List OverlapBox}
    {i : LayoutIssue} (h : i ∈ overlapIssues sid boxes) : i.type = .Overlap := by
  unfold overlapIssues at h
  rw [List.mem_filterMap] at h
  obtain ⟨p, _, hp⟩ := h
  split at hp
  · cases hp
    rfl
  · cases hp

/-- C3: in a free-mode Section with a LogicalSize, validation emits an
Overlap warning exactly for every pair (i before j, original child
order) of visible locators with a breakpoint-resolved logicalRect whose
axis-aligned intersection area is strictly positive, naming both ids;
breakpoint-hidden locators are excluded; and the two-locator example
(0,0,100,100) and (50,50,100,100) yields exactly one Overlap issue. -/
theorem overlap_validation_exact (sid : Option String) (ls : LogicalSize)
    (locs : List LocatorDesc) (bp : BreakpointKey) :
    (validateSectionLayout sid .free (some ls) locs bp).filter
        (fun i => decide (i.type = LayoutIssueType.Overlap))
      = specOverlapIssues sid bp locs
    ∧ (∀ (i j : ℕ) (a b : LocatorDesc),
        ((i, a), (j, b)) ∈ pairsAfter locs.enum ↔
          i < j ∧ locs.get? i = some a ∧ locs.get? j = some b)
    ∧ validateSectionLayout (some "s") .free (some ⟨200, 200⟩)
        [{ id := some "a", logicalRect := some (.byBp { base := some ⟨0, 0, 100, 100⟩ }) },
         { id := some "b", logicalRect := some (.byBp { base := some ⟨50, 50, 100, 100⟩ }) }]
        .base
      = [{ type := .Overlap, severity := .warning, sectionId := some "s",
           locatorId := some "a", otherLocatorId := some "b" }] := by
  refine ⟨?_, fun i j a b => pairsAfter_enum_mem, ?_⟩
  · unfold validateSectionLayout
    rw [List.filter_append, List.filter_append]
    have hmiss :
        (if SectionMode.free = SectionMode.free ∧ (some ls : Option LogicalSize) = none
          then [({ type := .MissingLogicalSize, severity := .error,
                   sectionId := sid } : LayoutIssue)] else []) = [] := by
      simp
    rw [hmiss]
    have hper : (locs.flatMap (locatorIssues sid .free (some ls) bp)).filter
        (fun i => decide (i.type = LayoutIssueType.Overlap)) = [] := by
      rw [List.filter_eq_nil_iff]
      intro i hi
      rw [List.mem_flatMap] at hi
      obtain ⟨loc, _, hloc⟩ := hi
      rcases locatorIssues_type hloc with h | h | h <;> simp [h]
    have hov : (overlapIssues sid (overlapBoxes .free (some ls) bp locs)).filter
        (fun i => decide (i.type = LayoutIssueType.Overlap))
        = overlapIssues sid (overlapBoxes .free (some ls) bp locs) := by
      rw [List.filter_eq_self]
      intro i hi
      simp [overlapIssues_mem_type hi]
    rw [hper, hov]
    simp only [List.filter_nil, List.nil_append]
    unfold overlapIssues overlapBoxes specOverlapIssues
    rw [pairsAfter_filterMap, List.filterMap_filterMap]
    apply List.filterMap_congr
    intro p _
    rcases p with ⟨a, b⟩
    unfold specOverlapIssue
    cases hva : resolveVisibility a.hidden bp
    · simp [hva]
    · cases hvb : resolveVisibility b.hidden bp
      · rcases hla : a.logicalRect.bind fun rr => pickResponsiveObj rr bp with _ | la <;>
          simp [hva, hvb, hla]
      · rcases hla : a.logicalRect.bind fun rr => pickResponsiveObj rr bp with _ | la <;>
          rcases hlb : b.logicalRect.bind fun rr => pickResponsiveObj rr bp with _ | lb <;>
          simp [hva, hvb, hla, hlb, overlapArea]
  · simp [validateSectionLayout, locatorIssues, overlapBoxes, overlapIssues,
      pairsAfter, specOverlapIssue, resolveVisibility, pickResponsive, pickResponsiveObj,
      BpMap.get, isNumericOffset, overlapArea]
    norm_num [min_def, max_def, List.filterMap_cons]

/-! ## C4: MissingLogicalSize fatality -/

theorem validate_filter_mls (sid : Option String) (m : SectionMode)
    (ls : Option LogicalSize) (locs : List LocatorDesc) (bp : BreakpointKey) :
    (validateSectionLayout sid m ls locs bp).filter
        (fun i => decide (i.type = LayoutIssueType.MissingLogicalSize))
      = if m = .free ∧ ls = none then
          [{ type := .MissingLogicalSize, severity := .error, sectionId := sid }]
        else [] := by
  unfold validateSectionLayout
  rw [List.filter_append, List.filter_append]
  have hper : (locs.flatMap (locatorIssues sid m ls bp)).filter
      (fun i => decide (i.type = LayoutIssueType.MissingLogicalSize)) = [] := by
    rw [List.filter_eq_nil_iff]
    intro i hi
    rw [List.mem_flatMap] at hi
    obtain ⟨loc, _, hloc⟩ := hi
    rcases locatorIssues_type hloc with h | h | h <;> simp [h]
  have hov : (overlapIssues sid (overlapBoxes m ls bp locs)).filter
      (fun i => decide (i.type = LayoutIssueType.MissingLogicalSize)) = [] := by
    rw [List.filter_eq_nil_iff]
    intro i hi
    simp [overlapIssues_mem_type hi]
  rw [hper, hov, List.append_nil, List.append_nil]
  split
  · simp
  · simp

theorem validate_mls_mem {sid : Option String} {m : SectionMode}
    {ls : Option LogicalSize} {locs : List LocatorDesc} {bp : BreakpointKey}
    {i : LayoutIssue} (h : i ∈ validateSectionLayout sid m ls locs bp)
    (ht : i.type = LayoutIssueType.MissingLogicalSize) : m = .free ∧ ls = none := by
  unfold validateSectionLayout at h
  rw [List.mem_append, List.mem_append] at h
  rcases h with (h | h) | h
  · by_cases hc : m = .free ∧ ls = none
    · exact hc
    · rw [if_neg hc] at h
      simp at h
  · rw [List.mem_flatMap] at h
    obtain ⟨loc, _, hloc⟩ := h
    rcases locatorIssues_type hloc with hh | hh | hh <;> rw [ht] at hh <;> cases hh
  · have := overlapIssues_mem_type h
    rw [ht] at this
    cases this

/-- C4: for a Section resolving to free mode with no LogicalSize,
validation produces exactly one MissingLogicalSize issue, with severity
error, and it is fatal: resolution aborts through the fatal channel (the
onError notification) and zero geometry is emitted. -/
theorem missing_logical_size_fatal (cfg : SectionCfg) (st : PagingSt)
    (locs : List LocatorDesc) (bp : BreakpointKey)
    (hm : (pickResponsive cfg.mode bp).getD .row = .free)
    (hls : cfg.logicalSize = none) :
    (resolveSection cfg st locs bp).issues.filter
        (fun i => decide (i.type = LayoutIssueType.MissingLogicalSize))
      = [{ type := .MissingLogicalSize, severity := .error, sectionId := cfg.id }]
    ∧ (resolveSection cfg st locs bp).fatal = some .missingLogicalSize
    ∧ (resolveSection cfg st locs bp).geometry = [] := by
  have hmem : (⟨.MissingLogicalSize, .error, cfg.id, none, none⟩ : LayoutIssue) ∈
      validateSectionLayout cfg.id ((pickResponsive cfg.mode bp).getD .row)
        cfg.logicalSize locs bp := by
    unfold validateSectionLayout
    rw [List.mem_append]
    left
    rw [List.mem_append]
    left
    rw [hm, hls]
    simp
  have hany : (validateSectionLayout cfg.id ((pickResponsive cfg.mode bp).getD .row)
      cfg.logicalSize locs bp).any (fun i =>
        decide (i.type = LayoutIssueType.MissingLogicalSize ∧
          i.severity = LayoutIssueSeverity.error)) = true := by
    rw [List.any_eq_true]
    exact ⟨_, hmem, by simp⟩
  have hout : resolveSection cfg st locs bp =
      ⟨validateSectionLayout cfg.id ((pickResponsive cfg.mode bp).getD .row)
        cfg.logicalSize locs bp, some .missingLogicalSize, []⟩ := by
    unfold resolveSection
    rw [if_pos hany]
  rw [hout]
  refine ⟨?_, rfl, rfl⟩
  rw [validate_filter_mls, if_pos ⟨hm, hls⟩]

/-- C4 witness: a free Section with no logicalSize and one logicalRect
child aborts with exactly one MissingLogicalSize error and no geometry. -/
theorem missing_logical_size_fatal_witness :
    (resolveSection { mode := .plain .free } { internalPage := 0 }
        [{ id := some "a",
           logicalRect := some (.byBp { base := some ⟨0, 0, 10, 10⟩ }) }] .base).issues.filter
        (fun i => decide (i.type = LayoutIssueType.MissingLogicalSize))
      = [{ type := .MissingLogicalSize, severity := .error, sectionId := none }]
    ∧ (resolveSection { mode := .plain .free } { internalPage := 0 }
        [{ id := some "a",
           logicalRect := some (.byBp { base := some ⟨0, 0, 10, 10⟩ }) }] .base).fatal
      = some .missingLogicalSize
    ∧ (resolveSection { mode := .plain .free } { internalPage := 0 }
        [{ id := some "a",
           logicalRect := some (.byBp { base := some ⟨0, 0, 10, 10⟩ }) }] .base).geometry
      = [] :=
  missing_logical_size_fatal { mode := .plain .free } { internalPage := 0 }
    [{ id := some "a", logicalRect := some (.byBp { base := some ⟨0, 0, 10, 10⟩ }) }]
    .base rfl rfl

/-! ## C5: z-order resolution -/

theorem insertByKey_perm {α : Type} (key : α → ℤ) (x : α) (l : List α) :
    (insertByKey key x l).Perm (x :: l) := by
  induction l with
  | nil => rfl
  | cons y ys ih =>
    unfold insertByKey
    split
    · exact (ih.cons y).trans (List.Perm.swap x y ys)
    · rfl

theorem insertByKey_sorted {α : Type} (key : α → ℤ) (x : α) {l : List α}
    (h : l.Pairwise fun a b => key a ≤ key b) :
    (insertByKey key x l).Pairwise fun a b => key a ≤ key b := by
  induction l with
  | nil => simp [insertByKey]
  | cons y ys ih =>
    rcases List.pairwise_cons.mp h with ⟨hy, hys⟩
    unfold insertByKey
    split
    · rename_i hlt
      apply List.pairwise_cons.mpr
      refine ⟨?_, ih hys⟩
      intro b hb
      rcases List.mem_cons.mp ((insertByKey_perm key x ys).mem_iff.mp hb) with rfl | hbys
      · exact le_of_lt hlt
      · exact hy b hbys
    · rename_i hnlt
      apply List.pairwise_cons.mpr
      refine ⟨?_, h⟩
      intro b hb
      rcases List.mem_cons.mp hb with rfl | hb
      · exact le_of_not_lt hnlt
      · exact (le_of_not_lt hnlt).trans (hy b hb)

theorem stableSortByKey_perm {α : Type} (key : α → ℤ) (l : List α) :
    (stableSortByKey key l).Perm l := by
  induction l with
  | nil => rfl
  | cons x xs ih =>
    exact (insertByKey_perm key x (stableSortByKey key xs)).trans (ih.cons x)

theorem stableSortByKey_sorted {α : Type} (key : α → ℤ) (l : List α) :
    (stableSortByKey key l).Pairwise fun a b => key a ≤ key b := by
  induction l with
  | nil => simp [stableSortByKey]
  | cons x xs ih => exact insertByKey_sorted key x ih

theorem stableSortByKey_eq_self {α : Type} (key : α → ℤ) {l : List α}
    (h : l.Pairwise fun a b => key a ≤ key b) : stableSortByKey key l = l := by
  induction l with
  | nil => rfl
  | cons x xs ih =>
    rcases List.pairwise_cons.mp h with ⟨hx, hxs⟩
    unfold stableSortByKey
    rw [ih hxs]
    cases xs with
    | nil => rfl
    | cons y ys =>
      unfold insertByKey
      rw [if_neg (not_lt.mpr (hx y (List.mem_cons_self y ys)))]

theorem findDup_eq_none_iff (seen : List ℤ) (l : List ℤ) :
    findDup seen l = none ↔ l.Nodup ∧ ∀ z ∈ l, z ∉ seen := by
  induction l generalizing seen with
  | nil => simp [findDup]
  | cons z rest ih =>
    unfold findDup
    split
    · rename_i hz
      simp only [reduceCtorEq, false_iff]
      rintro ⟨_, hall⟩
      exact hall z (List.mem_cons_self z rest) hz
    · rename_i hz
      rw [ih]
      constructor
      · rintro ⟨hnd, hall⟩
        refine ⟨List.nodup_cons.mpr ⟨?_, hnd⟩, ?_⟩
        · intro hmem
          exact (hall z hmem) (List.mem_cons_self z seen)
        · intro w hw
          rcases List.mem_cons.mp hw with rfl | hw
          · exact hz
          · intro hws
            exact hall w hw (List.mem_cons_of_mem z hws)
      · rintro ⟨hnd, hall⟩
        rcases List.nodup_cons.mp hnd with ⟨hzr, hrest⟩
        refine ⟨hrest, ?_⟩
        intro w hw hws
        rcases List.mem_cons.mp hws with rfl | hws
        · exact hzr hw
        · exact hall w (List.mem_cons_of_mem z hw) hws

theorem findDup_nil_eq_none_iff (l : List ℤ) : findDup [] l = none ↔ l.Nodup := by
  rw [findDup_eq_none_iff]
  simp

theorem annotateOrder_key_ge {locs : List LocatorDesc}
    (h : ∀ l ∈ locs, l.order = none) (i : ℤ) :
    ∀ p ∈ annotateOrder i locs, i ≤ p.2 := by
  induction locs generalizing i with
  | nil => simp [annotateOrder]
  | cons l rest ih =>
    intro p hp
    rcases List.mem_cons.mp hp with rfl | hp
    · rw [h l (List.mem_cons_self l rest)]
      exact le_refl i
    · have := ih (fun x hx => h x (List.mem_cons_of_mem l hx)) (i + 1) p hp
      omega

theorem annotateOrder_pairwise {locs : List LocatorDesc}
    (h : ∀ l ∈ locs, l.order = none) (i : ℤ) :
    (annotateOrder i locs).Pairwise fun a b => a.2 ≤ b.2 := by
  induction locs generalizing i with
  | nil => simp [annotateOrder]
  | cons l rest ih =>
    unfold annotateOrder
    apply List.pairwise_cons.mpr
    have hrest : ∀ x ∈ rest, x.order = none :=
      fun x hx => h x (List.mem_cons_of_mem l hx)
    refine ⟨?_, ih hrest (i + 1)⟩
    intro p hp
    have h1 := annotateOrder_key_ge hrest (i + 1) p hp
    rw [h l (List.mem_cons_self l rest)]
    simp only [Option.getD_none]
    omega

theorem annotateOrder_map_fst (i : ℤ) (locs : List LocatorDesc) :
    (annotateOrder i locs).map (fun p => p.1) = locs := by
  induction locs generalizing i with
  | nil => rfl
  | cons l rest ih =>
    unfold annotateOrder
    rw [List.map_cons, ih]

theorem sortByOrder_eq_self {locs : List LocatorDesc}
    (h : ∀ l ∈ locs, l.order = none) : sortByOrder locs = locs := by
  unfold sortByOrder
  rw [stableSortByKey_eq_self (fun p : LocatorDesc × ℤ => p.2)
    (annotateOrder_pairwise h 0)]
  exact annotateOrder_map_fst 0 locs

theorem validate_any_mls_false {sid : Option String} {m : SectionMode}
    {ls : Option LogicalSize} {locs : List LocatorDesc} {bp : BreakpointKey}
    (h : ¬(m = SectionMode.free ∧ ls = (none : Option LogicalSize))) :
    (validateSectionLayout sid m ls locs bp).any (fun i =>
      decide (i.type = LayoutIssueType.MissingLogicalSize ∧
        i.severity = LayoutIssueSeverity.error)) = false := by
  rw [List.any_eq_false]
  intro i hi
  simp only [decide_eq_true_eq, not_and]
  intro ht _
  exact absurd (validate_mls_mem hi ht) h

/-- C5 (amended): when the z-order resolver sees the whole child list
(the Section is not paged-lazy-sliced), no explicit order props reorder
children, and the MissingLogicalSize abort does not preempt it: a
duplicate effective zIndex (own breakpoint-resolved zIndex, else
1 + position index) is fatal with no geometry, and without duplicates
the Section renders the locators sorted strictly ascending by effective
zIndex (hence unique). In a paged lazy non-slider Section the resolver
sees only the current page slice, so cross-page duplicates are not
fatal — the original claim fails there. -/
theorem zorder_resolution (cfg : SectionCfg) (st : PagingSt)
    (locs : List LocatorDesc) (bp : BreakpointKey)
    (hord : ∀ l ∈ locs, l.order = none)
    (hscope : ¬sliceCond cfg locs.length)
    (hml : ¬((pickResponsive cfg.mode bp).getD .row = SectionMode.free
        ∧ cfg.logicalSize = none)) :
    (¬((effZList locs bp).map fun p => p.2).Nodup →
        (∃ z, (resolveSection cfg st locs bp).fatal = some (.duplicateZ z))
        ∧ (resolveSection cfg st locs bp).geometry = [])
    ∧ (((effZList locs bp).map fun p => p.2).Nodup →
        (resolveSection cfg st locs bp).fatal = none
        ∧ (resolveSection cfg st locs bp).geometry.Perm (effZList locs bp)
        ∧ ((resolveSection cfg st locs bp).geometry.map fun p => p.2).Pairwise
            (· < ·)) := by
  have hresolve : resolveSection cfg st locs bp =
      (match sortLocatorsByZIndex locs bp with
       | .error z =>
          ({ issues := validateSectionLayout cfg.id
              ((pickResponsive cfg.mode bp).getD .row) cfg.logicalSize locs bp,
             fatal := some (.duplicateZ z), geometry := [] } : SectionOut)
       | .ok sorted =>
          { issues := validateSectionLayout cfg.id
              ((pickResponsive cfg.mode bp).getD .row) cfg.logicalSize locs bp,
            fatal := none, geometry := sorted }) := by
    simp only [resolveSection]
    rw [validate_any_mls_false hml]
    simp only [Bool.false_eq_true, if_false]
    rw [sortByOrder_eq_self hord]
    simp only [pageChildrenOf]
    rw [if_neg hscope, ite_self]
  cases hfd : findDup [] ((effZList locs bp).map fun p => p.2) with
  | some z =>
    have hne : ¬((effZList locs bp).map fun p => p.2).Nodup := by
      rw [← findDup_nil_eq_none_iff, hfd]
      simp
    have hsort : sortLocatorsByZIndex locs bp = .error z := by
      simp only [sortLocatorsByZIndex]
      rw [hfd]
    constructor
    · intro _
      rw [hresolve, hsort]
      exact ⟨⟨z, rfl⟩, rfl⟩
    · intro hnd
      exact absurd hnd hne
  | none =>
    have hnd : ((effZList locs bp).map fun p => p.2).Nodup :=
      (findDup_nil_eq_none_iff _).mp hfd
    have hsort : sortLocatorsByZIndex locs bp =
        .ok (stableSortByKey (fun p => p.2) (effZList locs bp)) := by
      simp only [sortLocatorsByZIndex]
      rw [hfd]
    constructor
    · intro hne
      exact absurd hnd hne
    · intro _
      rw [hresolve, hsort]
      refine ⟨rfl, stableSortByKey_perm _ _, ?_⟩
      have hsorted :=
        stableSortByKey_sorted (fun p : LocatorDesc × ℤ => p.2) (effZList locs bp)
      have hperm : ((stableSortByKey (fun p : LocatorDesc × ℤ => p.2)
          (effZList locs bp)).map fun p => p.2).Perm
          ((effZList locs bp).map fun p => p.2) :=
        (stableSortByKey_perm _ _).map _
      have hnd2 : ((stableSortByKey (fun p : LocatorDesc × ℤ => p.2)
          (effZList locs bp)).map fun p => p.2).Nodup :=
        hperm.nodup_iff.mpr hnd
      have hle : ((stableSortByKey (fun p : LocatorDesc × ℤ => p.2)
          (effZList locs bp)).map fun p => p.2).Pairwise (· ≤ ·) :=
        List.pairwise_map.mpr hsorted
      exact (hle.and hnd2).imp fun hab => lt_of_le_of_ne hab.1 hab.2

/-- C5 counterexample: in a paged lazy Section (pageSize 1, two children
both with explicit zIndex 7) the effective zIndexes over the whole
Section are [7,7] — a duplicate per the claim — yet resolution does not
abort: the z-order resolver only saw the current page's slice, so the
fatal channel stays empty and geometry is emitted. -/
theorem zorder_claim_counterexample :
    ((effZList [zDupLoc, zDupLoc] .base).map fun p => p.2) = [7, 7]
    ∧ ¬((effZList [zDupLoc, zDupLoc] .base).map fun p => p.2).Nodup
    ∧ (resolveSection zDupCfg { internalPage := 0 } [zDupLoc, zDupLoc] .base).fatal
      = none
    ∧ (resolveSection zDupCfg { internalPage := 0 } [zDupLoc, zDupLoc] .base).geometry
      = [(zDupLoc, 7)] := by
  have heps : effectivePageSize zDupCfg 2 = 1 := by decide
  have htp : totalPages zDupCfg 2 = 2 := by
    unfold totalPages
    rw [heps]
    have hc : (⌈((2 : ℕ) : ℚ) / ((1 : ℤ) : ℚ)⌉ : ℤ) = 2 := by
      rw [show ((2 : ℕ) : ℚ) = 2 by norm_num, show ((1 : ℤ) : ℚ) = 1 by norm_num,
        div_one, Int.ceil_eq_iff]
      norm_num
    rw [if_pos (by norm_num), hc]
    norm_num
  have hsafe : safePageIndex zDupCfg 2 { internalPage := 0 } = 0 := by
    unfold safePageIndex rawPageIndex
    rw [htp]
    simp [zDupCfg]
  have hslice : pageChildrenOf zDupCfg { internalPage := 0 } [zDupLoc, zDupLoc]
      = [zDupLoc] := by
    simp only [pageChildrenOf, List.length_cons, List.length_nil]
    rw [if_pos ⟨by decide, by rw [htp]; norm_num, by decide, rfl⟩]
    rw [show (0 : ℕ) + 1 + 1 = 2 from rfl, hsafe, heps]
    decide
  have hany : (validateSectionLayout zDupCfg.id
      ((pickResponsive zDupCfg.mode BreakpointKey.base).getD .row)
      zDupCfg.logicalSize [zDupLoc, zDupLoc] .base).any (fun i =>
        decide (i.type = LayoutIssueType.MissingLogicalSize ∧
          i.severity = LayoutIssueSeverity.error)) = false := by decide
  have hz : sortLocatorsByZIndex [zDupLoc] .base = .ok [(zDupLoc, 7)] := by decide
  have hout : resolveSection zDupCfg { internalPage := 0 } [zDupLoc, zDupLoc] .base =
      ⟨validateSectionLayout zDupCfg.id
        ((pickResponsive zDupCfg.mode BreakpointKey.base).getD .row)
        zDupCfg.logicalSize [zDupLoc, zDupLoc] .base, none, [(zDupLoc, 7)]⟩ := by
    simp only [resolveSection]
    rw [hany]
    simp only [Bool.false_eq_true, if_false]
    rw [show sortByOrder [zDupLoc, zDupLoc] = [zDupLoc, zDupLoc] from by decide]
    rw [hslice]
    rw [if_neg (by rintro ⟨⟨h, _⟩, _⟩; cases h)]
    rw [hz]
  refine ⟨by decide, by decide, ?_, ?_⟩
  · rw [hout]
  · rw [hout]

/-- C5 witness: an unpaged Section with children of effective zIndexes
[5, 2] (one explicit, one defaulted) resolves without a fatal error, and
renders the locators sorted strictly ascending by effective zIndex. -/
theorem zorder_resolution_witness :
    (resolveSection { } { internalPage := 0 } [zOkLocA, zOkLocB] .base).fatal = none
    ∧ (resolveSection { } { internalPage := 0 } [zOkLocA, zOkLocB] .base).geometry.Perm
        (effZList [zOkLocA, zOkLocB] .base)
    ∧ ((resolveSection { } { internalPage := 0 } [zOkLocA, zOkLocB] .base).geometry.map
        fun p => p.2).Pairwise (· < ·) :=
  (zorder_resolution { } { internalPage := 0 } [zOkLocA, zOkLocB] .base
    (by decide) (fun h => h.1 rfl) (by decide)).2 (by decide)

/-! ## C6, C7, C8, C10: the paging state machine -/

theorem totalPages_pos (cfg : SectionCfg) (n : ℕ) : 1 ≤ totalPages cfg n := by
  unfold totalPages
  split
  · exact le_max_left 1 _
  · exact le_refl 1

/-- C6 (amended): effectivePageSize is the positive pageSize, else the
child count, except that with zero children (and no positive pageSize)
it is 1 rather than 0; totalPages is max(1, ceil(childCount /
effectivePageSize)); and goToPage wraps (loop) or clamps at both ends
and is the identity inside [0, totalPages-1]. -/
theorem paging_arithmetic (cfg : SectionCfg) (n : ℕ) (hp : isPaged cfg) :
    (claimedEffectivePageSize cfg n ≠ 0 →
        effectivePageSize cfg n = claimedEffectivePageSize cfg n)
    ∧ (claimedEffectivePageSize cfg n = 0 → effectivePageSize cfg n = 1)
    ∧ totalPages cfg n = max 1 ⌈(n : ℚ) / (effectivePageSize cfg n : ℚ)⌉
    ∧ (∀ k : ℤ, k < 0 →
        goToPageTarget cfg n k = if cfg.loop then totalPages cfg n - 1 else 0)
    ∧ (∀ k : ℤ, totalPages cfg n - 1 < k →
        goToPageTarget cfg n k = if cfg.loop then 0 else totalPages cfg n - 1)
    ∧ (∀ k : ℤ, 0 ≤ k → k ≤ totalPages cfg n - 1 → goToPageTarget cfg n k = k) := by
  refine ⟨?_, ?_, ?_, ?_, ?_, ?_⟩
  · intro hne
    rcases hps : cfg.pageSize with _ | p
    · simp only [claimedEffectivePageSize, hps] at hne ⊢
      simp only [effectivePageSize, hps]
      have hn : ¬(n = 0) := by
        intro h0
        rw [h0] at hne
        simp at hne
      rw [if_neg hn]
    · simp only [claimedEffectivePageSize, hps] at hne ⊢
      simp only [effectivePageSize, hps]
      by_cases hpp : 0 < p
      · rw [if_pos hpp, if_pos ⟨hp, ne_of_gt hpp, hpp⟩]
      · rw [if_neg hpp] at hne ⊢
        have hn : ¬(n = 0) := by
          intro h0
          rw [h0] at hne
          simp at hne
        rw [if_neg (by rintro ⟨_, _, hc⟩; exact hpp hc), if_neg hn]
  · intro hz
    rcases hps : cfg.pageSize with _ | p
    · simp only [claimedEffectivePageSize, hps] at hz
      simp only [effectivePageSize, hps]
      have hn : n = 0 := by exact_mod_cast hz
      rw [if_pos hn]
    · simp only [claimedEffectivePageSize, hps] at hz
      simp only [effectivePageSize, hps]
      by_cases hpp : 0 < p
      · rw [if_pos hpp] at hz
        exact absurd hz (ne_of_gt hpp)
      · rw [if_neg hpp] at hz
        have hn : n = 0 := by exact_mod_cast hz
        rw [if_neg (by rintro ⟨_, _, hc⟩; exact hpp hc), if_pos hn]
  · unfold totalPages
    split
    · rfl
    · rename_i hn
      have h0 : n = 0 := by omega
      subst h0
      rw [Nat.cast_zero, zero_div, Int.ceil_zero]
      norm_num
  · intro k hk
    unfold goToPageTarget
    rw [if_pos hk]
  · intro k hk
    unfold goToPageTarget
    have h1 := totalPages_pos cfg n
    rw [if_neg (by omega), if_pos hk]
  · intro k hk0 hk1
    unfold goToPageTarget
    rw [if_neg (by omega), if_neg (by omega)]

/-- C6 counterexample: a paged Section with zero children and no
positive pageSize has effectivePageSize 1 in the code (the `|| 1`
falsy fallback), while the claimed formula gives the child count 0. -/
theorem paging_pagesize_counterexample :
    isPaged ({ pagingMode := .pages } : SectionCfg)
    ∧ effectivePageSize { pagingMode := .pages } 0 = 1
    ∧ claimedEffectivePageSize { pagingMode := .pages } 0 = 0 :=
  ⟨by decide, by decide, by decide⟩

/-- C6 witness: 7 children with pageSize 3 and loop give totalPages 3,
goToPage 3 lands on 0 and goToPage (-1) lands on 2. -/
theorem paging_arithmetic_witness :
    totalPages { pagingMode := .pages, pageSize := some 3 } 7 = 3
    ∧ goToPageTarget { pagingMode := .pages, pageSize := some 3 } 7 3 = 0
    ∧ goToPageTarget { pagingMode := .pages, pageSize := some 3 } 7 (-1) = 2 := by
  have h := paging_arithmetic { pagingMode := .pages, pageSize := some 3 } 7 (by decide)
  have htp : totalPages { pagingMode := .pages, pageSize := some 3 } 7 = 3 := by
    unfold totalPages
    rw [show effectivePageSize { pagingMode := .pages, pageSize := some 3 } 7 = 3
      from by decide]
    have hc : (⌈((7 : ℕ) : ℚ) / ((3 : ℤ) : ℚ)⌉ : ℤ) = 3 := by
      rw [show ((7 : ℕ) : ℚ) = 7 by norm_num, show ((3 : ℤ) : ℚ) = 3 by norm_num,
        Int.ceil_eq_iff]
      norm_num
    rw [if_pos (by norm_num), hc]
    norm_num
  refine ⟨htp, ?_, ?_⟩
  · have hgo := h.2.2.2.2.1 3 (by rw [htp]; norm_num)
    rw [hgo]
    rfl
  · have hgo := h.2.2.2.1 (-1) (by norm_num)
    rw [hgo, htp]
    rfl

/-- C7: with a controlled current page, no operation of the paging
machine assigns the internal page state; goToPage only computes the
target and reports it through the page-change notification. -/
theorem controlled_paging_readonly (cfg : SectionCfg) (n : ℕ) (st : PagingSt)
    (c : ℤ) (h : cfg.currentPage = some c) :
    (∀ op : PagingOp, (pagingStep cfg n st op).st.internalPage = st.internalPage)
    ∧ ∀ k : ℤ, (pagingStep cfg n st (.goTo k)).notifs = [goToPageTarget cfg n k] := by
  have hgo : ∀ k, (goToPageStep cfg n st k).st.internalPage = st.internalPage := by
    intro k
    simp only [goToPageStep, h]
    simp
  have hnext : (goNextStep cfg n st).st.internalPage = st.internalPage := by
    unfold goNextStep
    split
    · rfl
    · exact hgo _
  have hprev : (goPrevStep cfg n st).st.internalPage = st.internalPage := by
    unfold goPrevStep
    split
    · rfl
    · exact hgo _
  constructor
  · intro op
    cases op with
    | goTo k => exact hgo k
    | pointerDown x =>
      simp only [pagingStep, pointerDownStep]
      split <;> rfl
    | pointerMove x =>
      simp only [pagingStep, pointerMoveStep]
      split <;> rfl
    | pointerUp =>
      simp only [pagingStep, pointerUpStep]
      split
      · split
        · split
          · simpa using hnext
          · simpa using hprev
        · rfl
      · rfl
    | pointerLeave =>
      simp only [pagingStep, pointerUpStep]
      split
      · split
        · split
          · simpa using hnext
          · simpa using hprev
        · rfl
      · rfl
    | autoplayTick =>
      simp only [pagingStep, autoplayTickStep]
      split
      · exact hnext
      · rfl
    | dotClick i =>
      simp only [pagingStep]
      split
      · exact hgo i
      · rfl
    | arrowNext =>
      simp only [pagingStep]
      split
      · exact hnext
      · rfl
    | arrowPrev =>
      simp only [pagingStep]
      split
      · exact hprev
      · rfl
    | reconcile =>
      simp only [pagingStep, reconcileStep, h]
      simp
  · intro k
    rfl

/-- C7 witness: a controlled Section ignores goToPage 99 internally but
reports the computed target. -/
theorem controlled_paging_readonly_witness :
    (pagingStep { pagingMode := .pages, currentPage := some 9 } 7
        { internalPage := 4 } (.goTo 99)).st.internalPage = 4
    ∧ (pagingStep { pagingMode := .pages, currentPage := some 9 } 7
        { internalPage := 4 } (.goTo 99)).notifs
      = [goToPageTarget { pagingMode := .pages, currentPage := some 9 } 7 99] :=
  ⟨(controlled_paging_readonly { pagingMode := .pages, currentPage := some 9 } 7
      { internalPage := 4 } 9 rfl).1 (.goTo 99),
   (controlled_paging_readonly { pagingMode := .pages, currentPage := some 9 } 7
      { internalPage := 4 } 9 rfl).2 99⟩

/-- C8 (amended): in slider+slide mode, gesture end always resets the
drag delta to 0 and leaves the active state (pointer-leave runs the
identical handler); above the 50px threshold it invokes goToPage exactly
once toward the swipe direction, provided there is more than one page —
with a single page the navigation is a guarded no-op (the original
claim's unconditional invocation fails there). -/
theorem drag_gesture_end (cfg : SectionCfg) (n : ℕ) (st : PagingSt)
    (hss : isSliderSlide cfg) (hdrag : st.dragging = true) :
    ((pagingStep cfg n st .pointerUp).st.dragging = false
      ∧ (pagingStep cfg n st .pointerUp).st.dragDeltaX = 0)
    ∧ pagingStep cfg n st .pointerLeave = pagingStep cfg n st .pointerUp
    ∧ (1 < totalPages cfg n → 50 < |st.dragDeltaX| → st.dragDeltaX < 0 →
        (pagingStep cfg n st .pointerUp).calls = [safePageIndex cfg n st + 1])
    ∧ (1 < totalPages cfg n → 50 < |st.dragDeltaX| → 0 < st.dragDeltaX →
        (pagingStep cfg n st .pointerUp).calls = [safePageIndex cfg n st - 1])
    ∧ (¬(50 < |st.dragDeltaX|) → (pagingStep cfg n st .pointerUp).calls = []) := by
  have hpaged : isPaged cfg := by
    unfold isPaged
    rw [hss.1]
    decide
  refine ⟨?_, rfl, ?_, ?_, ?_⟩
  · simp only [pagingStep, pointerUpStep]
    rw [if_pos ⟨hss, hdrag⟩]
    exact ⟨rfl, rfl⟩
  · intro htp h50 hneg
    simp only [pagingStep, pointerUpStep]
    rw [if_pos ⟨hss, hdrag⟩, if_pos h50, if_pos hneg]
    show (goNextStep cfg n st).calls = _
    unfold goNextStep
    rw [if_neg (by push_neg; exact ⟨hpaged, by omega⟩)]
    rfl
  · intro htp h50 hpos
    simp only [pagingStep, pointerUpStep]
    rw [if_pos ⟨hss, hdrag⟩, if_pos h50, if_neg (by exact asymm hpos)]
    show (goPrevStep cfg n st).calls = _
    unfold goPrevStep
    rw [if_neg (by push_neg; exact ⟨hpaged, by omega⟩)]
    rfl
  · intro h50
    simp only [pagingStep, pointerUpStep]
    rw [if_pos ⟨hss, hdrag⟩, if_neg h50]

/-- C8 counterexample: a slider+slide Section with a single page
(one child): a released drag of delta -60 crosses the threshold but
invokes goToPage zero times, because goNext is a no-op when
totalPages is 1; the claim demands exactly one invocation. -/
theorem drag_claim_counterexample :
    isSliderSlide ({ pagingMode := .slider, animation := .slide } : SectionCfg)
    ∧ ({ internalPage := 0, dragging := true, dragStartX := 100,
          dragDeltaX := -60 } : PagingSt).dragDeltaX = -60
    ∧ ({ internalPage := 0, dragging := true, dragStartX := 100,
          dragDeltaX := -60 } : PagingSt).dragDeltaX < 0
    ∧ (50 : ℚ) < |(-60 : ℚ)|
    ∧ (pagingStep { pagingMode := .slider, animation := .slide } 1
        { internalPage := 0, dragging := true, dragStartX := 100, dragDeltaX := -60 }
        .pointerUp).calls = [] := by
  have habs : |(-60 : ℚ)| = 60 := by
    rw [abs_of_nonpos (by norm_num)]
    norm_num
  have htp : totalPages { pagingMode := .slider, animation := .slide } 1 = 1 := by
    unfold totalPages
    rw [show effectivePageSize
      { pagingMode := .slider, animation := .slide } 1 = 1 from by decide]
    have hc : (⌈((1 : ℕ) : ℚ) / ((1 : ℤ) : ℚ)⌉ : ℤ) = 1 := by
      rw [show ((1 : ℕ) : ℚ) = 1 by norm_num, show ((1 : ℤ) : ℚ) = 1 by norm_num,
        div_one, Int.ceil_eq_iff]
      norm_num
    rw [if_pos (by norm_num), hc]
    norm_num
  refine ⟨by decide, rfl, by norm_num, ?_, ?_⟩
  · rw [habs]
    norm_num
  · simp only [pagingStep, pointerUpStep]
    rw [if_pos (by decide)]
    rw [if_pos (by show (50 : ℚ) < |(-60 : ℚ)|; rw [habs]; norm_num)]
    rw [if_pos (by norm_num)]
    show (goNextStep { pagingMode := .slider, animation := .slide } 1
      { internalPage := 0, dragging := true, dragStartX := 100,
        dragDeltaX := -60 }).calls = []
    unfold goNextStep
    rw [if_pos (Or.inr (by rw [htp]))]

/-- C8 witness: a two-page slider: releasing a -60px drag invokes
goToPage(current+1) exactly once and resets the drag state. -/
theorem drag_gesture_end_witness :
    (pagingStep { pagingMode := .slider, animation := .slide, pageSize := some 1 } 2
        { internalPage := 0, dragging := true, dragStartX := 100, dragDeltaX := -60 }
        .pointerUp).calls
      = [safePageIndex { pagingMode := .slider, animation := .slide, pageSize := some 1 }
          2 { internalPage := 0, dragging := true, dragStartX := 100,
              dragDeltaX := -60 } + 1]
    ∧ (pagingStep { pagingMode := .slider, animation := .slide, pageSize := some 1 } 2
        { internalPage := 0, dragging := true, dragStartX := 100, dragDeltaX := -60 }
        .pointerUp).st.dragging = false
    ∧ (pagingStep { pagingMode := .slider, animation := .slide, pageSize := some 1 } 2
        { internalPage := 0, dragging := true, dragStartX := 100, dragDeltaX := -60 }
        .pointerUp).st.dragDeltaX = 0 := by
  have h := drag_gesture_end
    { pagingMode := .slider, animation := .slide, pageSize := some 1 } 2
    { internalPage := 0, dragging := true, dragStartX := 100, dragDeltaX := -60 }
    (by decide) rfl
  have htp : totalPages
      { pagingMode := .slider, animation := .slide, pageSize := some 1 } 2 = 2 := by
    unfold totalPages
    rw [show effectivePageSize
      { pagingMode := .slider, animation := .slide, pageSize := some 1 } 2 = 1
      from by decide]
    have hc : (⌈((2 : ℕ) : ℚ) / ((1 : ℤ) : ℚ)⌉ : ℤ) = 2 := by
      rw [show ((2 : ℕ) : ℚ) = 2 by norm_num, show ((1 : ℤ) : ℚ) = 1 by norm_num,
        div_one, Int.ceil_eq_iff]
      norm_num
    rw [if_pos (by norm_num), hc]
    norm_num
  have habs : (50 : ℚ) < |(-60 : ℚ)| := by
    rw [abs_of_nonpos (by norm_num)]
    norm_num
  exact ⟨h.2.2.1 (by rw [htp]; norm_num) habs (by norm_num), h.1.1, h.1.2⟩

/-- C10: the page index used for rendering and slicing is the raw index
clamped into [0, totalPages-1] (negative renders page 0, too large
renders the last page); the lazy page slice is taken at the clamped
index; and the clamping is silent — the snap-back effect never fires the
page-change notification and, in controlled mode, changes nothing. -/
theorem safe_page_clamp (cfg : SectionCfg) (n : ℕ) (st : PagingSt) (c : ℤ) :
    (0 ≤ safePageIndex cfg n st ∧ safePageIndex cfg n st ≤ totalPages cfg n - 1)
    ∧ (rawPageIndex cfg st < 0 → safePageIndex cfg n st = 0)
    ∧ (totalPages cfg n - 1 < rawPageIndex cfg st →
        safePageIndex cfg n st = totalPages cfg n - 1)
    ∧ (0 ≤ rawPageIndex cfg st → rawPageIndex cfg st ≤ totalPages cfg n - 1 →
        safePageIndex cfg n st = rawPageIndex cfg st)
    ∧ (∀ children : List LocatorDesc, sliceCond cfg children.length →
        pageChildrenOf cfg st children =
          (children.drop ((safePageIndex cfg children.length st) *
            effectivePageSize cfg children.length).toNat).take
            (effectivePageSize cfg children.length).toNat)
    ∧ (cfg.currentPage = some c → pagingStep cfg n st .reconcile = ⟨st, [], []⟩)
    ∧ (pagingStep cfg n st .reconcile).notifs = [] := by
  have htp := totalPages_pos cfg n
  refine ⟨?_, ?_, ?_, ?_, ?_, ?_, ?_⟩
  · simp only [safePageIndex]
    split
    · omega
    · split
      · omega
      · omega
  · intro hr
    simp only [safePageIndex]
    rw [if_pos hr]
  · intro hr
    simp only [safePageIndex]
    rw [if_neg (by omega), if_pos hr]
  · intro h0 h1
    simp only [safePageIndex]
    rw [if_neg (by omega), if_neg (by omega)]
  · intro children hc
    simp only [pageChildrenOf]
    rw [if_pos hc]
  · intro hcur
    simp only [pagingStep, reconcileStep, hcur]
    simp
  · simp only [pagingStep, reconcileStep]
    split <;> rfl

/-- C10 witness: a controlled Section fed currentPage 99 with 3 pages
renders the clamped page 2, and the snap-back effect neither mutates
state nor fires any notification. -/
theorem safe_page_clamp_witness :
    safePageIndex { pagingMode := .pages, pageSize := some 3, currentPage := some 99 }
        7 { internalPage := 0 } = 2
    ∧ pagingStep { pagingMode := .pages, pageSize := some 3, currentPage := some 99 }
        7 { internalPage := 0 } .reconcile = ⟨{ internalPage := 0 }, [], []⟩
    ∧ (pagingStep { pagingMode := .pages, pageSize := some 3, currentPage := some 99 }
        7 { internalPage := 0 } .reconcile).notifs = [] := by
  have h := safe_page_clamp
    { pagingMode := .pages, pageSize := some 3, currentPage := some 99 } 7
    { internalPage := 0 } 99
  have htp : totalPages
      { pagingMode := .pages, pageSize := some 3, currentPage := some 99 } 7 = 3 := by
    unfold totalPages
    rw [show effectivePageSize
      { pagingMode := .pages, pageSize := some 3, currentPage := some 99 } 7 = 3
      from by decide]
    have hc : (⌈((7 : ℕ) : ℚ) / ((3 : ℤ) : ℚ)⌉ : ℤ) = 3 := by
      rw [show ((7 : ℕ) : ℚ) = 7 by norm_num, show ((3 : ℤ) : ℚ) = 3 by norm_num,
        Int.ceil_eq_iff]
      norm_num
    rw [if_pos (by norm_num), hc]
    norm_num
  refine ⟨?_, h.2.2.2.2.2.1 rfl, h.2.2.2.2.2.2⟩
  have hraw : rawPageIndex
      { pagingMode := .pages, pageSize := some 3, currentPage := some 99 }
      { internalPage := 0 } = 99 := rfl
  have hs := h.2.2.1 (by rw [htp, hraw]; norm_num)
  rw [hs, htp]
  norm_num

end PsyLayout
